import Mathlib

/-!
Simon: the game state machine of `Simon.cpp`.

A shallow embedding of the game variables of `src/Simon.cpp` and of the three
routines that change them: `DrawMenu`, `DrawGame` and `WindowProc`.

Modelling conventions.

* The C++ globals become the fields of `State`, with the names of the source.
* `int` variables are mathematical integers.  Every arithmetic step on them is
  guarded by an access to the 256-entry buffer `playbackValues`, and an access
  outside the buffer ends the run with `Halt.outOfRange`; the 32-bit range is
  therefore never left on a run that has a successor state.
* Tick counts (`LARGE_INTEGER::QuadPart`) are mathematical integers as well: the
  sums `tickCountNow + ...Ticks` are taken without wrap-around.
* Everything a frame reads from its environment is an explicit input
  (`Sample`): the performance counter, the outcome of the hit tests and the
  values `rand()` would return.  Drawing calls do not touch the game variables
  and are left out.
* The button geometry is computed by the source in `float`.  Its expressions
  are embedded over an arbitrary field with `sinf` and `cosf` as parameters, and
  the claims about it are stated over the real numbers with `Real.sin` and
  `Real.cos`; rounding is not modelled.
-/

namespace Simon

/-- Ways in which a message handler ends without a successor state. -/
inductive Halt where
  /-- The call `ExitProcess(EXIT_SUCCESS)` of the menu. -/
  | exitProcess : Halt
  /-- An access to `playbackValues` at an index outside `[0,256)`. -/
  | outOfRange (index : Int) : Halt
deriving DecidableEq, Repr

/-- The three durations computed once in `WinMain` from the counter frequency:
`ButtonLitTicks` (0.4 s), `AllButtonsOffTicks` (0.1 s) and
`GameStateChangedTicks` (0.5 s), in ticks. -/
structure Timing where
  ButtonLitTicks : Int
  AllButtonsOffTicks : Int
  GameStateChangedTicks : Int

/-- The game variables of `Simon.cpp` (lines 90-107). -/
structure State where
  currentLitButton : Int
  playbackValues : Fin 256 → Int
  playbackLength : Int
  playbackLocation : Int
  bestScore : Int
  mouseClicked : Bool
  gameState : Int
  bOutstandingTimer : Bool
  CurrentTimerFinished : Int

/-- What one frame samples from its environment. -/
structure Sample where
  /-- Value delivered by `QueryPerformanceCounter`. -/
  tickCountNow : Int
  /-- Outcome of the cursor test against the PLAY rectangle of the menu. -/
  inPlay : Bool
  /-- Outcome of the cursor test against the EXIT rectangle of the menu. -/
  inExit : Bool
  /-- Outcome of `FillContainsPoint` for each of the four buttons. -/
  inButton : Fin 4 → Bool
  /-- Value `rand()` returns if it is called in loop iteration `i`. -/
  rand : Fin 4 → Int

/-- The initialiser `int playbackValues[256] = { 1 }`. -/
def initialValues : Fin 256 → Int :=
  fun k => if k.val = 0 then 1 else 0

/-- The state after static initialisation and the start of `WinMain`, which
sets `CurrentTimerFinished` to the start-up counter value plus `ButtonLitTicks`. -/
def initialState (t : Timing) (startTick : Int) : State :=
  { currentLitButton := 4
    playbackValues := initialValues
    playbackLength := 1
    playbackLocation := 0
    bestScore := 0
    mouseClicked := false
    gameState := 0
    bOutstandingTimer := false
    CurrentTimerFinished := startTick + t.ButtonLitTicks }

/-- Read `playbackValues[i]`. -/
def readValue (vals : Fin 256 → Int) (i : Int) : Except Halt Int :=
  if h : 0 ≤ i ∧ i < 256 then
    Except.ok (vals ⟨i.toNat, by omega⟩)
  else
    Except.error (Halt.outOfRange i)

/-- Assign `playbackValues[i] = v`. -/
def writeValue (vals : Fin 256 → Int) (i : Int) (v : Int) : Except Halt (Fin 256 → Int) :=
  if h : 0 ≤ i ∧ i < 256 then
    Except.ok (Function.update vals ⟨i.toNat, by omega⟩ v)
  else
    Except.error (Halt.outOfRange i)

/-- `DrawMenu` (lines 190-302): the PLAY and EXIT hit regions and the click flag. -/
def DrawMenu (t : Timing) (inp : Sample) (s : State) : Except Halt State :=
  let r : Except Halt State :=
    if inp.inPlay then
      if s.mouseClicked then
        Except.ok { s with
          gameState := 1
          bOutstandingTimer := true
          CurrentTimerFinished := inp.tickCountNow + t.GameStateChangedTicks }
      else Except.ok s
    else if inp.inExit then
      if s.mouseClicked then Except.error Halt.exitProcess else Except.ok s
    else Except.ok s
  match r with
  | Except.error e => Except.error e
  | Except.ok s1 => Except.ok { s1 with mouseClicked := false }

/-- The `case 1` block of `DrawGame` (lines 542-575): sequence playback. -/
def playbackCase (t : Timing) (inp : Sample) (s : State) : Except Halt State :=
  if s.CurrentTimerFinished < inp.tickCountNow then
    if s.currentLitButton = 4 then
      match readValue s.playbackValues s.playbackLocation with
      | Except.error e => Except.error e
      | Except.ok v =>
        Except.ok { s with
          currentLitButton := v
          CurrentTimerFinished := inp.tickCountNow + t.ButtonLitTicks
          playbackLocation := s.playbackLocation + 1 }
    else
      let s1 : State := { s with currentLitButton := 4 }
      let s2 : State :=
        if s1.playbackLocation = s1.playbackLength then
          { s1 with gameState := 2, playbackLocation := 0 }
        else s1
      Except.ok { s2 with CurrentTimerFinished := inp.tickCountNow + t.AllButtonsOffTicks }
  else Except.ok s

/-- The body of the `for` loop of `case 2` of `DrawGame` (lines 592-621) for
button `i`; `max` is the `Windows.h` macro `((a) > (b)) ? (a) : (b)`. -/
def buttonBody (t : Timing) (inp : Sample) (i : Fin 4) (s : State) : Except Halt State :=
  if inp.inButton i && s.mouseClicked then
    match readValue s.playbackValues s.playbackLocation with
    | Except.error e => Except.error e
    | Except.ok v =>
      if ((i.val : Nat) : Int) = v then
        let s1 : State := { s with playbackLocation := s.playbackLocation + 1 }
        if s1.playbackLocation = s1.playbackLength then
          match writeValue s1.playbackValues s1.playbackLocation (Int.tmod (inp.rand i) 4) with
          | Except.error e => Except.error e
          | Except.ok vals =>
            Except.ok { s1 with
              CurrentTimerFinished := inp.tickCountNow + t.ButtonLitTicks
              playbackValues := vals
              playbackLocation := 0
              bestScore := if s1.bestScore > s1.playbackLength then s1.bestScore
                           else s1.playbackLength
              playbackLength := s1.playbackLength + 1
              gameState := 1 }
        else Except.ok s1
      else
        Except.ok { s with
          playbackLength := 1
          playbackLocation := 0
          gameState := 1
          bOutstandingTimer := true
          CurrentTimerFinished := inp.tickCountNow + t.GameStateChangedTicks }
  else Except.ok s

/-- The `case 2` block of `DrawGame` (lines 576-625): the loop `i = 0 .. 3`. -/
def inputCase (t : Timing) (inp : Sample) (s : State) : Except Halt State :=
  buttonBody t inp 0 s >>= buttonBody t inp 1 >>= buttonBody t inp 2 >>= buttonBody t inp 3

/-- `DrawGame` (lines 304-663), restricted to the game variables. -/
def DrawGame (t : Timing) (inp : Sample) (s : State) : Except Halt State :=
  let r : Except Halt State :=
    if s.bOutstandingTimer then
      if s.CurrentTimerFinished < inp.tickCountNow then
        Except.ok { s with bOutstandingTimer := false }
      else Except.ok s
    else if s.gameState = 1 then playbackCase t inp s
    else if s.gameState = 2 then inputCase t inp s
    else Except.ok s
  match r with
  | Except.error e => Except.error e
  | Except.ok s1 => Except.ok { s1 with mouseClicked := false }

/-- The virtual-key code `VK_ESCAPE`. -/
def VK_ESCAPE : Nat := 27

/-- The window messages, as far as the game variables are concerned. -/
inductive Msg where
  /-- `WM_LBUTTONUP` or `WM_LBUTTONDBLCLK`. -/
  | lButtonUp : Msg
  /-- `WM_KEYDOWN` with its `wParam`. -/
  | keyDown (wParam : Nat) : Msg
  /-- A message that reaches the `WM_PAINT` case: `WM_PAINT` itself, or
  `WM_SIZE` / `WM_DPICHANGED` of a window that is not minimised. -/
  | paint (inp : Sample) : Msg
  /-- Any other message (also every message handled by `IdleProc`). -/
  | other : Msg

/-- `WindowProc` (lines 825-865). -/
def WindowProc (t : Timing) (m : Msg) (s : State) : Except Halt State :=
  match m with
  | Msg.lButtonUp => Except.ok { s with mouseClicked := true }
  | Msg.keyDown wParam =>
    if wParam = VK_ESCAPE then
      Except.ok { s with
        gameState := 0
        playbackLength := 1
        playbackLocation := 0
        mouseClicked := false }
    else Except.ok s
  | Msg.paint inp =>
    if s.gameState = 0 then DrawMenu t inp s else DrawGame t inp s
  | Msg.other => Except.ok s

/-- The message loop: the messages of a list are handled one after the other. -/
def runMsgs (t : Timing) : List Msg → State → Except Halt State
  | [], s => Except.ok s
  | m :: ms, s =>
    match WindowProc t m s with
    | Except.error e => Except.error e
    | Except.ok s1 => runMsgs t ms s1

/-- The element the player is expected to click, `playbackValues[playbackLocation]`,
if the cursor indexes the buffer. -/
def expected (s : State) : Option Int :=
  match readValue s.playbackValues s.playbackLocation with
  | Except.error _ => none
  | Except.ok v => some v

/-- A message is played faithfully in state `s` when it is not the Escape key
and, if it is a frame that will process a pending click in the PlayerInput
phase, every button that contains the cursor is the expected button
`playbackValues[playbackLocation]`. -/
def faithfulMsg (s : State) (m : Msg) : Prop :=
  match m with
  | Msg.keyDown wParam => wParam ≠ VK_ESCAPE
  | Msg.paint inp =>
    s.gameState = 2 → s.bOutstandingTimer = false → s.mouseClicked = true →
      ∀ j : Fin 4, inp.inButton j = true → expected s = some ((j.val : Nat) : Int)
  | _ => True

instance decidableFaithfulMsg (s : State) (m : Msg) : Decidable (faithfulMsg s m) :=
  match m with
  | Msg.keyDown wParam => inferInstanceAs (Decidable (wParam ≠ VK_ESCAPE))
  | Msg.paint inp =>
    inferInstanceAs (Decidable (s.gameState = 2 → s.bOutstandingTimer = false →
      s.mouseClicked = true →
        ∀ j : Fin 4, inp.inButton j = true → expected s = some ((j.val : Nat) : Int)))
  | Msg.lButtonUp => inferInstanceAs (Decidable True)
  | Msg.other => inferInstanceAs (Decidable True)

/-- Every message of the run is played faithfully in the state it meets. -/
def faithfulRun (t : Timing) : List Msg → State → Bool
  | [], _ => true
  | m :: ms, s =>
    decide (faithfulMsg s m) &&
      match WindowProc t m s with
      | Except.error _ => true
      | Except.ok s1 => faithfulRun t ms s1

/-- Number of messages of the run that take the game from PlayerInput
(`gameState = 2`) to SequencePlayback (`gameState = 1`). -/
def roundsCompleted (t : Timing) : List Msg → State → Nat
  | [], _ => 0
  | m :: ms, s =>
    match WindowProc t m s with
    | Except.error _ => 0
    | Except.ok s1 =>
      (if s.gameState = 2 ∧ s1.gameState = 1 then 1 else 0) + roundsCompleted t ms s1

/-- `Plays t s n u`: some faithfully played run takes `s` to `u` and completes
`n` rounds on the way. -/
def Plays (t : Timing) (s : State) (n : Nat) (u : State) : Prop :=
  ∃ ms : List Msg, faithfulRun t ms s = true ∧ runMsgs t ms s = Except.ok u ∧
    roundsCompleted t ms s = n

/-- The random source returns only non-negative values in this message. -/
def randNonneg : Msg → Prop
  | Msg.paint inp => ∀ j : Fin 4, 0 ≤ inp.rand j
  | _ => True

/-- States reached from the initial state by some run of messages. -/
def Reachable (t : Timing) (startTick : Int) (s : State) : Prop :=
  ∃ ms : List Msg, runMsgs t ms (initialState t startTick) = Except.ok s

/-- States reached from the initial state by some run of messages in which the
random source returns only non-negative values. -/
def ReachableNonneg (t : Timing) (startTick : Int) (s : State) : Prop :=
  ∃ ms : List Msg, (∀ m ∈ ms, randNonneg m) ∧
    runMsgs t ms (initialState t startTick) = Except.ok s

/-- The cursor invariant: the length lies between 1 and 256, the cursor lies between 0
and the length, strictly below the length whenever an element is about to be
read at it (PlayerInput, or no button lit), and no buffer entry equals the
sentinel 4. -/
def CursorInv (s : State) : Prop :=
  1 ≤ s.playbackLength ∧ s.playbackLength ≤ 256 ∧
    0 ≤ s.playbackLocation ∧ s.playbackLocation ≤ s.playbackLength ∧
    ((s.gameState = 2 ∨ s.currentLitButton = 4) → s.playbackLocation < s.playbackLength) ∧
    ∀ k : Fin 256, s.playbackValues k ≠ 4

/-- The value invariant: every buffer entry is a button index, and the lit
button is a button index or the sentinel 4. -/
def ValuesInv (s : State) : Prop :=
  (∀ k : Fin 256, 0 ≤ s.playbackValues k ∧ s.playbackValues k < 4) ∧
    0 ≤ s.currentLitButton ∧ s.currentLitButton ≤ 4

/-! ### The Geometry Builder of `DrawGame` (lines 369-523)

The source computes in `float` with `sinf` and `cosf`.  The definitions below
follow the same expressions over an arbitrary field `K`, with the two library
functions as parameters; the claims about the geometry instantiate them with
the real numbers, `Real.sin` and `Real.cos`. -/

/-- `frad` (lines 112-115): degrees to radians with the constant of the source. -/
def frad {K : Type} [Field K] (degrees : K) : K :=
  degrees * 3.14159265359 / 180

/-- `D2D1_POINT_2F`. -/
structure Point2F (K : Type) where
  x : K
  y : K

/-- `D2D1_BEZIER_SEGMENT`: the two control points and the end point of a cubic
segment that starts at the current point of the figure. -/
structure BezierSegment (K : Type) where
  point1 : Point2F K
  point2 : Point2F K
  point3 : Point2F K

/-- `fullRadius = boardWidth / 2` (line 379). -/
def fullRadius {K : Type} [Field K] (boardWidth : K) : K :=
  boardWidth / 2

/-- `innerCircleRadius = boardWidth * .2f` (line 381). -/
def innerCircleRadius {K : Type} [Field K] (boardWidth : K) : K :=
  boardWidth * 0.2

/-- `outerRimRadius = fullRadius - innerCircleRadius` (line 383). -/
def outerRimRadius {K : Type} [Field K] (boardWidth : K) : K :=
  fullRadius boardWidth - innerCircleRadius boardWidth

/-- `lateralMargin = outerRimRadius * .05f` (line 406). -/
def lateralMargin {K : Type} [Field K] (boardWidth : K) : K :=
  outerRimRadius boardWidth * 0.05

/-- `buttonOffsetAngle = i * 90` (line 389). -/
def buttonOffsetAngle {K : Type} [Field K] (i : Fin 4) : K :=
  ((i.val : Nat) : K) * 90

/-- `outercirclebevel = 2.5f` (line 400). -/
def outercirclebevel {K : Type} [Field K] : K := 2.5

/-- `outerSliceMargin = 3.f` (line 403). -/
def outerSliceMargin {K : Type} [Field K] : K := 3

/-- The point written throughout lines 408-462 as
`(boardArea.left + fullRadius + -sinf(frad(angle)) * radius,
  boardArea.top + fullRadius + -cosf(frad(angle)) * radius)`. -/
def rimPoint {K : Type} [Field K] (sinf cosf : K → K) (left top boardWidth : K)
    (angle radius : K) : Point2F K :=
  { x := left + fullRadius boardWidth + -sinf (frad angle) * radius
    y := top + fullRadius boardWidth + -cosf (frad angle) * radius }

/-- The point passed to `BeginFigure` (lines 408-411). -/
def figureBegin {K : Type} [Field K] (sinf cosf : K → K) (left top boardWidth : K)
    (i : Fin 4) : Point2F K :=
  rimPoint sinf cosf left top boardWidth (buttonOffsetAngle i + 90 - outerSliceMargin)
    (fullRadius boardWidth - lateralMargin boardWidth)

/-- The first outer-rim segment (lines 416-430). -/
def outerRimFirst {K : Type} [Field K] (sinf cosf : K → K) (left top boardWidth : K)
    (i : Fin 4) : BezierSegment K :=
  { point1 := rimPoint sinf cosf left top boardWidth
      (buttonOffsetAngle i + 90 - outerSliceMargin)
      (fullRadius boardWidth - lateralMargin boardWidth)
    point2 := rimPoint sinf cosf left top boardWidth
      (buttonOffsetAngle i + 90 - outerSliceMargin) (fullRadius boardWidth)
    point3 := rimPoint sinf cosf left top boardWidth
      (buttonOffsetAngle i + 90 - outerSliceMargin - outercirclebevel)
      (fullRadius boardWidth) }

/-- The second outer-rim segment (lines 432-446). -/
def outerRimSecond {K : Type} [Field K] (sinf cosf : K → K) (left top boardWidth : K)
    (i : Fin 4) : BezierSegment K :=
  { point1 := rimPoint sinf cosf left top boardWidth
      (buttonOffsetAngle i + 90 - outerSliceMargin - outercirclebevel)
      (fullRadius boardWidth)
    point2 := rimPoint sinf cosf left top boardWidth
      (buttonOffsetAngle i + 45) (fullRadius boardWidth * 1.3)
    point3 := rimPoint sinf cosf left top boardWidth
      (buttonOffsetAngle i + outerSliceMargin + outercirclebevel)
      (fullRadius boardWidth) }

/-- The third outer-rim segment (lines 448-462). -/
def outerRimThird {K : Type} [Field K] (sinf cosf : K → K) (left top boardWidth : K)
    (i : Fin 4) : BezierSegment K :=
  { point1 := rimPoint sinf cosf left top boardWidth
      (buttonOffsetAngle i + outerSliceMargin + outercirclebevel)
      (fullRadius boardWidth)
    point2 := rimPoint sinf cosf left top boardWidth
      (buttonOffsetAngle i + outerSliceMargin) (fullRadius boardWidth)
    point3 := rimPoint sinf cosf left top boardWidth
      (buttonOffsetAngle i + outerSliceMargin)
      (fullRadius boardWidth - lateralMargin boardWidth) }

/-- The cubic Bezier curve that `ID2D1GeometrySink::AddBezier` appends to a
figure whose current point is `p0`, at parameter `t`. -/
def bezierPoint {K : Type} [Field K] (p0 : Point2F K) (seg : BezierSegment K) (t : K) :
    Point2F K :=
  { x := (1 - t) ^ 3 * p0.x + 3 * (1 - t) ^ 2 * t * seg.point1.x +
      3 * (1 - t) * t ^ 2 * seg.point2.x + t ^ 3 * seg.point3.x
    y := (1 - t) ^ 3 * p0.y + 3 * (1 - t) ^ 2 * t * seg.point1.y +
      3 * (1 - t) * t ^ 2 * seg.point2.y + t ^ 3 * seg.point3.y }

/-- The three outer-rim curves of button `i`, in the order of the source: each
segment starts at the current point of the figure, which is the point of
`BeginFigure` for the first segment and the end point of the previous segment
for the others. -/
def outerRimCurve {K : Type} [Field K] (sinf cosf : K → K) (left top boardWidth : K)
    (i : Fin 4) (k : Fin 3) (t : K) : Point2F K :=
  match k with
  | 0 => bezierPoint (figureBegin sinf cosf left top boardWidth i)
      (outerRimFirst sinf cosf left top boardWidth i) t
  | 1 => bezierPoint (outerRimFirst sinf cosf left top boardWidth i).point3
      (outerRimSecond sinf cosf left top boardWidth i) t
  | 2 => bezierPoint (outerRimSecond sinf cosf left top boardWidth i).point3
      (outerRimThird sinf cosf left top boardWidth i) t

/-- The board centre, the centre of the two circles drawn at lines 628-657. -/
def boardCentre {K : Type} [Field K] (left top boardWidth : K) : Point2F K :=
  { x := left + boardWidth / 2
    y := top + boardWidth / 2 }

/-- Square of the Euclidean distance of two points. -/
def distSq {K : Type} [Field K] (p q : Point2F K) : K :=
  (p.x - q.x) ^ 2 + (p.y - q.y) ^ 2

/-! ### Concrete inputs used to evaluate the model -/

/-- Durations for a counter that runs at 10 ticks per second. -/
def demoTiming : Timing :=
  { ButtonLitTicks := 4, AllButtonsOffTicks := 1, GameStateChangedTicks := 5 }

/-- A frame sampled at `now`, with the cursor over PLAY in the menu, inside the
button `b` (if any) on the board, and `rand()` returning 7. -/
def demoSample (now : Int) (b : Option (Fin 4)) : Sample :=
  { tickCountNow := now
    inPlay := true
    inExit := false
    inButton := fun j => decide (some j = b)
    rand := fun _ => 7 }

/-- A PlayerInput state holding the sequence `[2, 0, 3]` with the cursor at
`loc` and a click pending. -/
def demoInputState (loc : Int) : State :=
  { currentLitButton := 4
    playbackValues := fun k => if k.val = 0 then 2 else if k.val = 2 then 3 else 0
    playbackLength := 3
    playbackLocation := loc
    bestScore := 2
    mouseClicked := true
    gameState := 2
    bOutstandingTimer := false
    CurrentTimerFinished := 100 }

/-- The fresh game (sequence `[1]`, best score 0) at the start of PlayerInput
with a click pending. -/
def demoFreshInput : State :=
  { initialState demoTiming 0 with gameState := 2, mouseClicked := true }

/-- A SequencePlayback state of the length-1 game with the given lit button,
cursor and deadline. -/
def demoPlaybackState (lit loc deadline : Int) : State :=
  { currentLitButton := lit
    playbackValues := initialValues
    playbackLength := 1
    playbackLocation := loc
    bestScore := 0
    mouseClicked := false
    gameState := 1
    bOutstandingTimer := false
    CurrentTimerFinished := deadline }

/-- The messages of a fresh start: click PLAY at tick 10, let the lockout and
the first deadline pass, which lights the first element at tick 17. -/
def demoStart : List Msg :=
  [Msg.lButtonUp, Msg.paint (demoSample 10 none), Msg.paint (demoSample 16 none),
    Msg.paint (demoSample 17 none)]

/-- A fresh start followed by one completed round: the light goes off at tick
22, which opens PlayerInput, and the player clicks button 1. -/
def demoRound : List Msg :=
  demoStart ++ [Msg.paint (demoSample 22 none), Msg.lButtonUp, Msg.paint (demoSample 23 (some 1))]

/-- The fresh game at the start of PlayerInput with a click pending, as it is
reached from the initial state: the light went off at tick 22 (deadline 23) and
the player has released the mouse button. -/
def demoClickState : State :=
  { currentLitButton := 4
    playbackValues := initialValues
    playbackLength := 1
    playbackLocation := 0
    bestScore := 0
    mouseClicked := true
    gameState := 2
    bOutstandingTimer := false
    CurrentTimerFinished := 23 }

/-- Summary of a result: lit button, length, cursor, best score, phase,
lockout flag and deadline. -/
def summary (r : Except Halt State) : Option (Int × Int × Int × Int × Int × Bool × Int) :=
  match r with
  | Except.error _ => none
  | Except.ok s =>
    some (s.currentLitButton, s.playbackLength, s.playbackLocation, s.bestScore,
      s.gameState, s.bOutstandingTimer, s.CurrentTimerFinished)

/-! ## Auxiliary lemmas -/

theorem ok_bind (s : State) (f : State → Except Halt State) :
    (Except.ok s >>= f) = f s := rfl

theorem error_bind (e : Halt) (f : State → Except Halt State) :
    ((Except.error e : Except Halt State) >>= f) = Except.error e := rfl

theorem bind_ok_right (r : Except Halt State) :
    (r >>= fun s => Except.ok s) = r := by
  cases r <;> rfl

theorem buttonBody_miss (t : Timing) (inp : Sample) (j : Fin 4) (s : State)
    (h : inp.inButton j = false) : buttonBody t inp j s = Except.ok s := by
  simp [buttonBody, h]

theorem buttonBody_noclick (t : Timing) (inp : Sample) (j : Fin 4) (s : State)
    (h : s.mouseClicked = false) : buttonBody t inp j s = Except.ok s := by
  simp [buttonBody, h]

theorem bind_miss (t : Timing) (inp : Sample) (j : Fin 4) (r : Except Halt State)
    (h : inp.inButton j = false) : (r >>= buttonBody t inp j) = r := by
  cases r with
  | error e => rfl
  | ok s => exact buttonBody_miss t inp j s h

theorem inputCase_single (t : Timing) (inp : Sample) (i : Fin 4) (s : State)
    (hhit : ∀ j, inp.inButton j = decide (j = i)) :
    inputCase t inp s = buttonBody t inp i s := by
  unfold inputCase
  fin_cases i
  · have h1 := hhit 1; have h2 := hhit 2; have h3 := hhit 3
    simp at h1 h2 h3
    rw [bind_miss _ _ 3 _ h3, bind_miss _ _ 2 _ h2, bind_miss _ _ 1 _ h1]
    rfl
  · have h0 := hhit 0; have h2 := hhit 2; have h3 := hhit 3
    simp at h0 h2 h3
    rw [bind_miss _ _ 3 _ h3, bind_miss _ _ 2 _ h2, buttonBody_miss _ _ 0 _ h0]
    rfl
  · have h0 := hhit 0; have h1 := hhit 1; have h3 := hhit 3
    simp at h0 h1 h3
    rw [bind_miss _ _ 3 _ h3, buttonBody_miss _ _ 0 _ h0, ok_bind, buttonBody_miss _ _ 1 _ h1]
    rfl
  · have h0 := hhit 0; have h1 := hhit 1; have h2 := hhit 2
    simp at h0 h1 h2
    rw [buttonBody_miss _ _ 0 _ h0, ok_bind, buttonBody_miss _ _ 1 _ h1, ok_bind,
      buttonBody_miss _ _ 2 _ h2]
    rfl


theorem readValue_ok {vals : Fin 256 → Int} {i v : Int}
    (h : readValue vals i = Except.ok v) :
    ∃ hb : 0 ≤ i ∧ i < 256, vals ⟨i.toNat, by omega⟩ = v := by
  unfold readValue at h
  split at h
  · next hb => exact ⟨hb, by simpa using h⟩
  · simp at h

theorem readValue_of_bounds (vals : Fin 256 → Int) (i : Int) (h0 : 0 ≤ i) (h1 : i < 256) :
    readValue vals i = Except.ok (vals ⟨i.toNat, by omega⟩) := by
  simp [readValue, h0, h1]

theorem bind_eq_ok {r : Except Halt State} {f : State → Except Halt State} {s1 : State}
    (h : (r >>= f) = Except.ok s1) : ∃ u, r = Except.ok u ∧ f u = Except.ok s1 := by
  cases r with
  | error e => cases h
  | ok u => exact ⟨u, rfl, h⟩

/-- The four ways in which one iteration of the PlayerInput loop can end:
nothing happens, the cursor advances, the round is completed, or the click is
a mismatch. -/
theorem buttonBody_cases {t : Timing} {inp : Sample} {j : Fin 4} {u u1 : State}
    (h : buttonBody t inp j u = Except.ok u1) :
    u1 = u ∨
    (u.playbackLocation + 1 ≠ u.playbackLength ∧
      u1 = { u with playbackLocation := u.playbackLocation + 1 }) ∨
    (∃ hb : 0 ≤ u.playbackLength ∧ u.playbackLength < 256,
      u.playbackLocation + 1 = u.playbackLength ∧
      u1 = { u with
        CurrentTimerFinished := inp.tickCountNow + t.ButtonLitTicks
        playbackValues := Function.update u.playbackValues ⟨u.playbackLength.toNat, by omega⟩
          (Int.tmod (inp.rand j) 4)
        playbackLocation := 0
        bestScore := if u.bestScore > u.playbackLength then u.bestScore else u.playbackLength
        playbackLength := u.playbackLength + 1
        gameState := 1 }) ∨
    (∃ v, readValue u.playbackValues u.playbackLocation = Except.ok v ∧
      ((j.val : Nat) : Int) ≠ v ∧
      u1 = { u with
        playbackLength := 1
        playbackLocation := 0
        gameState := 1
        bOutstandingTimer := true
        CurrentTimerFinished := inp.tickCountNow + t.GameStateChangedTicks }) := by
  unfold buttonBody at h
  split at h
  · split at h
    · cases h
    · next v hread =>
      split at h
      · simp only at h
        split at h
        · next hend =>
          simp only [writeValue, hend] at h
          by_cases hb : 0 ≤ u.playbackLength ∧ u.playbackLength < 256
          · right; right; left
            refine ⟨hb, hend, ?_⟩
            simp only [hb, and_self, dite_true] at h
            injection h with h
            exact h.symm
          · simp only [hb, dite_false] at h
            cases h
        · next hend =>
          right; left
          injection h with h
          exact ⟨hend, h.symm⟩
      · next hne =>
        right; right; right
        injection h with h
        exact ⟨v, hread, hne, h.symm⟩
  · left
    injection h with h
    exact h.symm

/-- An invariant of the loop body is an invariant of the PlayerInput loop. -/
theorem inputCase_induct {t : Timing} {inp : Sample} (P : State → Prop)
    (hstep : ∀ (j : Fin 4) (u u1 : State), P u → buttonBody t inp j u = Except.ok u1 → P u1)
    {s s1 : State} (h0 : P s) (h : inputCase t inp s = Except.ok s1) : P s1 := by
  unfold inputCase at h
  obtain ⟨u2, h2, h3⟩ := bind_eq_ok h
  obtain ⟨u1, h1, h2⟩ := bind_eq_ok h2
  obtain ⟨u0, h0', h1⟩ := bind_eq_ok h1
  exact hstep 3 u2 s1 (hstep 2 u1 u2 (hstep 1 u0 u1 (hstep 0 s u0 h0 h0') h1) h2) h3

/-- The ways in which a SequencePlayback frame can end. -/
theorem playbackCase_cases {t : Timing} {inp : Sample} {u u1 : State}
    (h : playbackCase t inp u = Except.ok u1) :
    u1 = u ∨
    (∃ hb : 0 ≤ u.playbackLocation ∧ u.playbackLocation < 256,
      u.currentLitButton = 4 ∧
      u1 = { u with
        currentLitButton := u.playbackValues ⟨u.playbackLocation.toNat, by omega⟩
        CurrentTimerFinished := inp.tickCountNow + t.ButtonLitTicks
        playbackLocation := u.playbackLocation + 1 }) ∨
    (u.currentLitButton ≠ 4 ∧ u.playbackLocation = u.playbackLength ∧
      u1 = { u with
        currentLitButton := 4
        gameState := 2
        playbackLocation := 0
        CurrentTimerFinished := inp.tickCountNow + t.AllButtonsOffTicks }) ∨
    (u.currentLitButton ≠ 4 ∧ u.playbackLocation ≠ u.playbackLength ∧
      u1 = { u with
        currentLitButton := 4
        CurrentTimerFinished := inp.tickCountNow + t.AllButtonsOffTicks }) := by
  unfold playbackCase at h
  split at h
  · split at h
    · next hlit =>
      split at h
      · cases h
      · next v hread =>
        obtain ⟨hb, hv⟩ := readValue_ok hread
        right; left
        refine ⟨hb, hlit, ?_⟩
        injection h with h
        rw [← h, hv]
    · next hlit =>
      simp only at h
      split at h
      · next hend =>
        right; right; left
        injection h with h
        exact ⟨hlit, hend, h.symm⟩
      · next hend =>
        right; right; right
        injection h with h
        exact ⟨hlit, hend, h.symm⟩
  · left
    injection h with h
    exact h.symm

/-- The ways in which `DrawGame` can end, up to the final clearing of the click
flag. -/
theorem DrawGame_cases {t : Timing} {inp : Sample} {s s1 : State}
    (h : DrawGame t inp s = Except.ok s1) :
    ∃ u, s1 = { u with mouseClicked := false } ∧
      (u = s ∨ (s.bOutstandingTimer = true ∧ u = { s with bOutstandingTimer := false }) ∨
        (s.bOutstandingTimer = false ∧ s.gameState = 1 ∧ playbackCase t inp s = Except.ok u) ∨
        (s.bOutstandingTimer = false ∧ s.gameState = 2 ∧ inputCase t inp s = Except.ok u)) := by
  unfold DrawGame at h
  simp only at h
  split at h
  · cases h
  · next u hu =>
    injection h with h
    refine ⟨u, h.symm, ?_⟩
    split at hu
    · next htm =>
      split at hu
      · injection hu with hu
        exact Or.inr (Or.inl ⟨htm, hu.symm⟩)
      · injection hu with hu
        exact Or.inl hu.symm
    · next htm =>
      have htm' : s.bOutstandingTimer = false := by simpa using htm
      split at hu
      · next hgs => exact Or.inr (Or.inr (Or.inl ⟨htm', hgs, hu⟩))
      · split at hu
        · next hgs => exact Or.inr (Or.inr (Or.inr ⟨htm', hgs, hu⟩))
        · injection hu with hu
          exact Or.inl hu.symm

/-- The ways in which `DrawMenu` can end. -/
theorem DrawMenu_cases {t : Timing} {inp : Sample} {s s1 : State}
    (h : DrawMenu t inp s = Except.ok s1) :
    s1 = { s with mouseClicked := false } ∨
    s1 = { s with
      gameState := 1
      bOutstandingTimer := true
      CurrentTimerFinished := inp.tickCountNow + t.GameStateChangedTicks
      mouseClicked := false } := by
  unfold DrawMenu at h
  simp only at h
  split at h
  · cases h
  · next u hu =>
    injection h with h
    subst h
    split at hu
    · split at hu
      · injection hu with hu
        subst hu
        exact Or.inr rfl
      · injection hu with hu
        subst hu
        exact Or.inl rfl
    · split at hu
      · split at hu
        · cases hu
        · injection hu with hu
          subst hu
          exact Or.inl rfl
      · injection hu with hu
        subst hu
        exact Or.inl rfl

/-- A property kept by every message is kept by every run. -/
theorem runMsgs_induct {t : Timing} (P : State → Prop) (Q : Msg → Prop)
    (hstep : ∀ (m : Msg) (u u1 : State), Q m → P u → WindowProc t m u = Except.ok u1 → P u1) :
    ∀ (ms : List Msg) (s s1 : State), (∀ m ∈ ms, Q m) → P s →
      runMsgs t ms s = Except.ok s1 → P s1 := by
  intro ms
  induction ms with
  | nil =>
    intro s s1 _ h0 h
    simp only [runMsgs] at h
    injection h with h
    exact h ▸ h0
  | cons m ms ih =>
    intro s s1 hQ h0 h
    simp only [runMsgs] at h
    split at h
    · cases h
    · next u hu =>
      exact ih u s1 (fun x hx => hQ x (List.mem_cons_of_mem _ hx))
        (hstep m s u (hQ m (List.mem_cons_self _ _)) h0 hu) h

/-! ## Frame-level claims -/

/-- C2. In the PlayerInput phase with no lockout pending, a frame that processes
a click with the cursor inside exactly one button `i` that differs from the
expected element `playbackValues[playbackLocation]` resets the length to 1 and
the cursor to 0, returns to SequencePlayback, sets the lockout flag and schedules
the deadline `now + GameStateChangedTicks`; the previous length and cursor are
arbitrary (the cursor only has to index the buffer, so that the expected
element exists). -/
theorem mismatch_resets (t : Timing) (inp : Sample) (s : State) (i : Fin 4) (v : Int)
    (hgs : s.gameState = 2) (htm : s.bOutstandingTimer = false)
    (hclk : s.mouseClicked = true)
    (hread : readValue s.playbackValues s.playbackLocation = Except.ok v)
    (hhit : ∀ j, inp.inButton j = decide (j = i))
    (hne : ((i.val : Nat) : Int) ≠ v) :
    ∃ s1, DrawGame t inp s = Except.ok s1 ∧ s1.playbackLength = 1 ∧
      s1.playbackLocation = 0 ∧ s1.gameState = 1 ∧ s1.bOutstandingTimer = true ∧
      s1.CurrentTimerFinished = inp.tickCountNow + t.GameStateChangedTicks := by
  have hi : inp.inButton i = true := by simp [hhit i]
  simp [DrawGame, htm, hgs, inputCase_single t inp i s hhit, buttonBody, hi, hclk, hread, hne]

/-- Witness for C2: the sequence `[2, 0, 3]` with the cursor at 1 (expected
button 0) and a click on button 1. -/
theorem mismatch_resets_witness :
    ∃ s1, DrawGame demoTiming (demoSample 50 (some 1)) (demoInputState 1) = Except.ok s1 ∧
      s1.playbackLength = 1 ∧ s1.playbackLocation = 0 ∧ s1.gameState = 1 ∧
      s1.bOutstandingTimer = true ∧
      s1.CurrentTimerFinished =
        (demoSample 50 (some 1)).tickCountNow + demoTiming.GameStateChangedTicks :=
  mismatch_resets demoTiming (demoSample 50 (some 1)) (demoInputState 1) 1 0
    rfl rfl rfl rfl (by decide) (by decide)

/-- C3. In the PlayerInput phase with no lockout pending, cursor `L - 1` and
length `L < 256`, a frame that processes a click with the cursor inside exactly
the expected button ends with length `L + 1`, the entries below `L` unchanged,
the new entry `rand() % 4` at index `L`, cursor 0, phase SequencePlayback, best
score `max best L` and deadline `now + ButtonLitTicks`. -/
theorem round_completion (t : Timing) (inp : Sample) (s : State) (i : Fin 4) (L : Int)
    (hgs : s.gameState = 2) (htm : s.bOutstandingTimer = false)
    (hclk : s.mouseClicked = true)
    (hlen : s.playbackLength = L) (hL : L < 256) (hloc : s.playbackLocation = L - 1)
    (hread : readValue s.playbackValues s.playbackLocation = Except.ok ((i.val : Nat) : Int))
    (hhit : ∀ j, inp.inButton j = decide (j = i)) :
    ∃ s1, DrawGame t inp s = Except.ok s1 ∧ s1.playbackLength = L + 1 ∧
      (∀ k : Fin 256, ((k.val : Nat) : Int) < L → s1.playbackValues k = s.playbackValues k) ∧
      readValue s1.playbackValues L = Except.ok (Int.tmod (inp.rand i) 4) ∧
      s1.playbackLocation = 0 ∧ s1.gameState = 1 ∧ s1.bestScore = max s.bestScore L ∧
      s1.CurrentTimerFinished = inp.tickCountNow + t.ButtonLitTicks := by
  have hi : inp.inButton i = true := by simp [hhit i]
  obtain ⟨hb, -⟩ := readValue_ok hread
  have hL0 : 0 ≤ L := by omega
  have hw : writeValue s.playbackValues L (Int.tmod (inp.rand i) 4) =
      Except.ok (Function.update s.playbackValues ⟨L.toNat, by omega⟩ (Int.tmod (inp.rand i) 4)) := by
    simp [writeValue, hL0, hL]
  have hloc1 : s.playbackLocation + 1 = L := by omega
  have hres : DrawGame t inp s = Except.ok { s with
      CurrentTimerFinished := inp.tickCountNow + t.ButtonLitTicks
      playbackValues := Function.update s.playbackValues ⟨L.toNat, by omega⟩
        (Int.tmod (inp.rand i) 4)
      playbackLocation := 0
      bestScore := if s.bestScore > L then s.bestScore else L
      playbackLength := L + 1
      gameState := 1
      mouseClicked := false } := by
    simp only [DrawGame, htm, hgs, inputCase_single t inp i s hhit, buttonBody, hi, hclk, hread]
    simp [hloc1, hlen, hw]
  refine ⟨_, hres, ?_⟩
  · refine ⟨rfl, ?_, ?_, rfl, rfl, ?_, rfl⟩
    · intro k hk
      have hne : k ≠ ⟨L.toNat, by omega⟩ := by
        intro h
        have := congrArg Fin.val h
        simp at this
        omega
      simp [Function.update_noteq hne]
    · simp [readValue, hL0, hL]
    · rcases le_or_lt s.bestScore L with h | h
      · simp [max_eq_right h, not_lt.mpr h]
      · simp [max_eq_left h.le, h]

/-- Witness for C3: the fresh game (`L = 1`, sequence `[1]`, best 0) and a click
on button 1: the length becomes 2 and the best score `max 0 1`. -/
theorem round_completion_witness :
    ∃ s1, DrawGame demoTiming (demoSample 30 (some 1)) demoFreshInput = Except.ok s1 ∧
      s1.playbackLength = 1 + 1 ∧
      (∀ k : Fin 256, ((k.val : Nat) : Int) < 1 → s1.playbackValues k = initialValues k) ∧
      readValue s1.playbackValues 1 = Except.ok (Int.tmod 7 4) ∧
      s1.playbackLocation = 0 ∧ s1.gameState = 1 ∧ s1.bestScore = max 0 1 ∧
      s1.CurrentTimerFinished = 30 + 4 :=
  round_completion demoTiming (demoSample 30 (some 1))
    demoFreshInput 1 1 rfl rfl rfl rfl (by decide) rfl rfl (by decide)

/-- C6. SequencePlayback step, on a frame with `gameState = 1`, no lockout
pending and the deadline behind the counter (`CurrentTimerFinished < now`).  If
no button is lit, the element under the cursor is lit, the cursor advances by
one and the deadline becomes `now + ButtonLitTicks`, phase and length
unchanged.  Otherwise the light goes off, the deadline becomes
`now + AllButtonsOffTicks`, and the cursor is reset to 0 with a change to
PlayerInput exactly when the cursor equals the length. -/
theorem playback_step (t : Timing) (inp : Sample) (s : State)
    (hgs : s.gameState = 1) (htm : s.bOutstandingTimer = false)
    (hdl : s.CurrentTimerFinished < inp.tickCountNow) :
    (s.currentLitButton = 4 →
      ∀ v, readValue s.playbackValues s.playbackLocation = Except.ok v →
        ∃ s1, DrawGame t inp s = Except.ok s1 ∧ s1.currentLitButton = v ∧
          s1.playbackLocation = s.playbackLocation + 1 ∧
          s1.CurrentTimerFinished = inp.tickCountNow + t.ButtonLitTicks ∧
          s1.gameState = 1 ∧ s1.playbackLength = s.playbackLength) ∧
    (s.currentLitButton ≠ 4 →
      ∃ s1, DrawGame t inp s = Except.ok s1 ∧ s1.currentLitButton = 4 ∧
        s1.CurrentTimerFinished = inp.tickCountNow + t.AllButtonsOffTicks ∧
        s1.playbackLength = s.playbackLength ∧
        (s.playbackLocation = s.playbackLength →
          s1.playbackLocation = 0 ∧ s1.gameState = 2) ∧
        (s.playbackLocation ≠ s.playbackLength →
          s1.playbackLocation = s.playbackLocation ∧ s1.gameState = 1)) := by
  constructor
  · intro hlit v hread
    simp [DrawGame, htm, hgs, playbackCase, hdl, hlit, hread]
  · intro hlit
    by_cases hend : s.playbackLocation = s.playbackLength
    · simp [DrawGame, htm, hgs, playbackCase, hdl, hlit, hend]
    · simp [DrawGame, htm, hgs, playbackCase, hdl, hlit, hend]

/-- Witness for C6: the length-1 game with button 1 lit and the cursor at 1,
deadline 21, frame at tick 22: the light goes off and PlayerInput begins. -/
theorem playback_step_witness :
    ∃ s1, DrawGame demoTiming (demoSample 22 none) (demoPlaybackState 1 1 21) = Except.ok s1 ∧
      s1.currentLitButton = 4 ∧ s1.CurrentTimerFinished = 22 + 1 ∧
      s1.playbackLength = 1 ∧
      ((1 : Int) = 1 → s1.playbackLocation = 0 ∧ s1.gameState = 2) ∧
      ((1 : Int) ≠ 1 → s1.playbackLocation = 1 ∧ s1.gameState = 1) :=
  (playback_step demoTiming (demoSample 22 none) (demoPlaybackState 1 1 21)
    rfl rfl (by decide)).2 (by decide)

/-- C7. Whatever the state, handling `WM_KEYDOWN` with `VK_ESCAPE` sets
`gameState = 0`, `playbackLength = 1` and `playbackLocation = 0` and leaves
`bestScore` unchanged. -/
theorem escape_resets (t : Timing) (s : State) :
    ∃ s1, WindowProc t (Msg.keyDown VK_ESCAPE) s = Except.ok s1 ∧ s1.gameState = 0 ∧
      s1.playbackLength = 1 ∧ s1.playbackLocation = 0 ∧ s1.bestScore = s.bestScore := by
  simp [WindowProc]

/-! ## Invariants of the message loop -/

theorem tmod_four_lt (r : Int) : Int.tmod r 4 < 4 :=
  Int.tmod_lt_of_pos r (by decide)

theorem update_apply_cases (vals : Fin 256 → Int) (a k : Fin 256) (v : Int) :
    Function.update vals a v k = v ∨ Function.update vals a v k = vals k := by
  by_cases hk : k = a
  · left
    subst hk
    exact Function.update_same _ _ _
  · right
    exact Function.update_noteq hk _ _

theorem CursorInv_initial (t : Timing) (startTick : Int) :
    CursorInv (initialState t startTick) := by
  refine ⟨by simp [initialState], by simp [initialState], by simp [initialState],
    by simp [initialState], by simp [initialState], ?_⟩
  intro k
  simp only [initialState, initialValues]
  split <;> decide

theorem CursorInv_buttonBody {t : Timing} {inp : Sample} (j : Fin 4) (u u1 : State)
    (hu : u.playbackLocation < u.playbackLength ∧ CursorInv u)
    (h : buttonBody t inp j u = Except.ok u1) :
    u1.playbackLocation < u1.playbackLength ∧ CursorInv u1 := by
  obtain ⟨hlt, h1, h2, h0, hle, himp, hval⟩ := hu
  rcases buttonBody_cases h with rfl | ⟨hne, rfl⟩ | ⟨hb, hend, rfl⟩ | ⟨_, _, _, rfl⟩
  · exact ⟨hlt, h1, h2, h0, hle, himp, hval⟩
  · refine ⟨?_, h1, h2, ?_, ?_, ?_, hval⟩ <;> simp only <;> intros <;> omega
  · refine ⟨?_, ?_, ?_, ?_, ?_, ?_, ?_⟩
    · simp only; omega
    · simp only; omega
    · simp only; omega
    · simp only; omega
    · simp only; omega
    · simp only; intros; omega
    · intro k
      simp only
      rcases update_apply_cases u.playbackValues ⟨u.playbackLength.toNat, by omega⟩ k
        (Int.tmod (inp.rand j) 4) with hk | hk
      · rw [hk]
        have := tmod_four_lt (inp.rand j)
        omega
      · rw [hk]
        exact hval k
  · refine ⟨?_, ?_, ?_, ?_, ?_, ?_, hval⟩ <;> simp

theorem CursorInv_step {t : Timing} (m : Msg) (u u1 : State) (_ : True)
    (hu : CursorInv u) (h : WindowProc t m u = Except.ok u1) : CursorInv u1 := by
  obtain ⟨h1, h2, h0, hle, himp, hval⟩ := hu
  cases m with
  | lButtonUp =>
    simp only [WindowProc] at h
    injection h with h
    subst h
    exact ⟨h1, h2, h0, hle, himp, hval⟩
  | keyDown w =>
    simp only [WindowProc] at h
    split at h
    · injection h with h
      subst h
      exact ⟨le_refl _, by simp, le_refl _, by simp, by simp, hval⟩
    · injection h with h
      subst h
      exact ⟨h1, h2, h0, hle, himp, hval⟩
  | other =>
    simp only [WindowProc] at h
    injection h with h
    subst h
    exact ⟨h1, h2, h0, hle, himp, hval⟩
  | paint inp =>
    simp only [WindowProc] at h
    split at h
    · next hgs =>
      rcases DrawMenu_cases h with rfl | rfl
      · exact ⟨h1, h2, h0, hle, himp, hval⟩
      · refine ⟨h1, h2, h0, hle, ?_, hval⟩
        intro hc
        simp only at hc
        rcases hc with hc | hc
        · omega
        · exact himp (Or.inr hc)
    · obtain ⟨v, rfl, hv⟩ := DrawGame_cases h
      rcases hv with rfl | ⟨-, rfl⟩ | ⟨-, hgs, hv⟩ | ⟨-, hgs, hv⟩
      · exact ⟨h1, h2, h0, hle, himp, hval⟩
      · exact ⟨h1, h2, h0, hle, himp, hval⟩
      · rcases playbackCase_cases hv with rfl | ⟨hb, hlit, rfl⟩ | ⟨hlit, hend, rfl⟩ |
          ⟨hlit, hend, rfl⟩
        · exact ⟨h1, h2, h0, hle, himp, hval⟩
        · have hlt := himp (Or.inr hlit)
          refine ⟨h1, h2, ?_, ?_, ?_, hval⟩
          · simp only; omega
          · simp only; omega
          · simp only
            intro hc
            rcases hc with hc | hc
            · omega
            · exact absurd hc (hval _)
        · refine ⟨h1, h2, ?_, ?_, ?_, hval⟩
          · simp
          · simp only; omega
          · simp only; intros; omega
        · refine ⟨h1, h2, h0, hle, ?_, hval⟩
          simp only
          intro _
          omega
      · have hlt := himp (Or.inl hgs)
        have := inputCase_induct (fun x => x.playbackLocation < x.playbackLength ∧ CursorInv x)
          CursorInv_buttonBody ⟨hlt, h1, h2, h0, hle, himp, hval⟩ hv
        exact this.2

theorem CursorInv_reachable {t : Timing} {startTick : Int} {s : State}
    (h : Reachable t startTick s) : CursorInv s := by
  obtain ⟨ms, hms⟩ := h
  exact runMsgs_induct CursorInv (fun _ => True) CursorInv_step ms _ s
    (fun _ _ => trivial) (CursorInv_initial t startTick) hms

theorem ValuesInv_initial (t : Timing) (startTick : Int) :
    ValuesInv (initialState t startTick) := by
  refine ⟨?_, by simp [initialState], by simp [initialState]⟩
  intro k
  simp only [initialState, initialValues]
  split <;> decide

theorem ValuesInv_buttonBody {t : Timing} {inp : Sample} (hr : ∀ j : Fin 4, 0 ≤ inp.rand j)
    (j : Fin 4) (u u1 : State) (hu : ValuesInv u)
    (h : buttonBody t inp j u = Except.ok u1) : ValuesInv u1 := by
  obtain ⟨hval, hlit⟩ := hu
  rcases buttonBody_cases h with rfl | ⟨hne, rfl⟩ | ⟨hb, hend, rfl⟩ | ⟨_, _, _, rfl⟩
  · exact ⟨hval, hlit⟩
  · exact ⟨hval, hlit⟩
  · refine ⟨?_, hlit⟩
    intro k
    simp only
    rcases update_apply_cases u.playbackValues ⟨u.playbackLength.toNat, by omega⟩ k
      (Int.tmod (inp.rand j) 4) with hk | hk
    · rw [hk]
      exact ⟨Int.tmod_nonneg 4 (hr j), tmod_four_lt (inp.rand j)⟩
    · rw [hk]
      exact hval k
  · exact ⟨hval, hlit⟩

theorem ValuesInv_step {t : Timing} (m : Msg) (u u1 : State) (hQ : randNonneg m)
    (hu : ValuesInv u) (h : WindowProc t m u = Except.ok u1) : ValuesInv u1 := by
  obtain ⟨hval, hlit⟩ := hu
  cases m with
  | lButtonUp =>
    simp only [WindowProc] at h
    injection h with h
    subst h
    exact ⟨hval, hlit⟩
  | keyDown w =>
    simp only [WindowProc] at h
    split at h
    · injection h with h
      subst h
      exact ⟨hval, hlit⟩
    · injection h with h
      subst h
      exact ⟨hval, hlit⟩
  | other =>
    simp only [WindowProc] at h
    injection h with h
    subst h
    exact ⟨hval, hlit⟩
  | paint inp =>
    simp only [WindowProc] at h
    split at h
    · rcases DrawMenu_cases h with rfl | rfl
      · exact ⟨hval, hlit⟩
      · exact ⟨hval, hlit⟩
    · obtain ⟨v, rfl, hv⟩ := DrawGame_cases h
      rcases hv with rfl | ⟨-, rfl⟩ | ⟨-, hgs, hv⟩ | ⟨-, hgs, hv⟩
      · exact ⟨hval, hlit⟩
      · exact ⟨hval, hlit⟩
      · rcases playbackCase_cases hv with rfl | ⟨hb, hl, rfl⟩ | ⟨hl, hend, rfl⟩ |
          ⟨hl, hend, rfl⟩
        · exact ⟨hval, hlit⟩
        · refine ⟨hval, ?_, ?_⟩
          · exact (hval _).1
          · exact le_of_lt (hval _).2
        · exact ⟨hval, by simp, by simp⟩
        · exact ⟨hval, by simp, by simp⟩
      · have hv1 : ValuesInv v :=
          inputCase_induct ValuesInv (ValuesInv_buttonBody hQ) ⟨hval, hlit⟩ hv
        exact hv1

theorem ValuesInv_reachable {t : Timing} {startTick : Int} {s : State}
    (h : ReachableNonneg t startTick s) : ValuesInv s := by
  obtain ⟨ms, hQ, hms⟩ := h
  exact runMsgs_induct ValuesInv randNonneg ValuesInv_step ms _ s hQ
    (ValuesInv_initial t startTick) hms

theorem demoStart_run :
    runMsgs demoTiming demoStart (initialState demoTiming 0) =
      Except.ok (demoPlaybackState 1 1 21) := rfl

theorem demoStart_nonneg : ∀ m ∈ demoStart, randNonneg m := by
  intro m hm
  simp only [demoStart, List.mem_cons, List.mem_singleton, List.mem_nil_iff, or_false] at hm
  rcases hm with rfl | rfl | rfl | rfl
  · trivial
  · intro j; simp [demoSample]
  · intro j; simp [demoSample]
  · intro j; simp [demoSample]

theorem bestScore_buttonBody {t : Timing} {inp : Sample} (b : Int) (j : Fin 4) (u u1 : State)
    (hu : b ≤ u.bestScore) (h : buttonBody t inp j u = Except.ok u1) : b ≤ u1.bestScore := by
  rcases buttonBody_cases h with rfl | ⟨hne, rfl⟩ | ⟨hb, hend, rfl⟩ | ⟨_, _, _, rfl⟩
  · exact hu
  · exact hu
  · simp only
    split <;> omega
  · exact hu

theorem bestScore_step {t : Timing} {m : Msg} {s s1 : State}
    (h : WindowProc t m s = Except.ok s1) : s.bestScore ≤ s1.bestScore := by
  cases m with
  | lButtonUp =>
    simp only [WindowProc] at h
    injection h with h
    subst h
    exact le_refl _
  | keyDown w =>
    simp only [WindowProc] at h
    split at h <;> (injection h with h; subst h; exact le_refl _)
  | other =>
    simp only [WindowProc] at h
    injection h with h
    subst h
    exact le_refl _
  | paint inp =>
    simp only [WindowProc] at h
    split at h
    · rcases DrawMenu_cases h with rfl | rfl <;> exact le_refl _
    · obtain ⟨v, rfl, hv⟩ := DrawGame_cases h
      rcases hv with rfl | ⟨-, rfl⟩ | ⟨-, hgs, hv⟩ | ⟨-, hgs, hv⟩
      · exact le_refl _
      · exact le_refl _
      · rcases playbackCase_cases hv with rfl | ⟨hb, hl, rfl⟩ | ⟨hl, hend, rfl⟩ |
          ⟨hl, hend, rfl⟩ <;> exact le_refl _
      · have hv1 : s.bestScore ≤ v.bestScore :=
          inputCase_induct (fun x => s.bestScore ≤ x.bestScore)
            (bestScore_buttonBody s.bestScore) (le_refl _) hv
        exact hv1

/-- Loop invariant behind the score of a completed round: either a mismatch
has set the lockout flag, or the round of length `n` is still being entered,
or it has been completed and the best score is at least `n`. -/
theorem roundScore_buttonBody {t : Timing} {inp : Sample} (n : Int) (j : Fin 4) (u u1 : State)
    (hu : u.bOutstandingTimer = true ∨ (u.gameState = 2 ∧ u.playbackLength = n) ∨
      (u.gameState = 1 ∧ n ≤ u.bestScore))
    (h : buttonBody t inp j u = Except.ok u1) :
    u1.bOutstandingTimer = true ∨ (u1.gameState = 2 ∧ u1.playbackLength = n) ∨
      (u1.gameState = 1 ∧ n ≤ u1.bestScore) := by
  rcases buttonBody_cases h with rfl | ⟨hne, rfl⟩ | ⟨hb, hend, rfl⟩ | ⟨_, _, _, rfl⟩
  · exact hu
  · exact hu
  · rcases hu with hu | ⟨-, hu⟩ | ⟨-, hu⟩
    · exact Or.inl hu
    · refine Or.inr (Or.inr ⟨rfl, ?_⟩)
      simp only
      split <;> omega
    · refine Or.inr (Or.inr ⟨rfl, ?_⟩)
      simp only
      split <;> omega
  · exact Or.inl rfl

/-! ## Claims about the whole session -/

/-- C4. `bestScore` never decreases in a step of the session (click, key,
menu frame, game frame in any phase); and after a frame that completes a
PlayerInput round (PlayerInput with no lockout before, SequencePlayback with no
lockout after) `bestScore` is at least the length the sequence had before the
frame incremented it. -/
theorem bestScore_nondecreasing (t : Timing) (m : Msg) (s s1 : State)
    (h : WindowProc t m s = Except.ok s1) :
    s.bestScore ≤ s1.bestScore ∧
      (s.gameState = 2 → s.bOutstandingTimer = false → s1.gameState = 1 →
        s1.bOutstandingTimer = false → s.playbackLength ≤ s1.bestScore) := by
  refine ⟨bestScore_step h, ?_⟩
  intro hgs htm hgs1 htm1
  cases m with
  | lButtonUp =>
    simp only [WindowProc] at h
    injection h with h
    subst h
    simp only at hgs1
    omega
  | keyDown w =>
    simp only [WindowProc] at h
    split at h <;> injection h with h <;> subst h <;> first | omega | simp at hgs1
  | other =>
    simp only [WindowProc] at h
    injection h with h
    subst h
    omega
  | paint inp =>
    simp only [WindowProc] at h
    split at h
    · omega
    · obtain ⟨v, rfl, hv⟩ := DrawGame_cases h
      simp only at hgs1 htm1
      rcases hv with rfl | ⟨htm', -⟩ | ⟨-, hgs', -⟩ | ⟨-, -, hv⟩
      · omega
      · rw [htm] at htm'
        cases htm'
      · omega
      · have hv1 := inputCase_induct
          (fun x => x.bOutstandingTimer = true ∨ (x.gameState = 2 ∧ x.playbackLength = s.playbackLength) ∨
            (x.gameState = 1 ∧ s.playbackLength ≤ x.bestScore))
          (roundScore_buttonBody s.playbackLength) (Or.inr (Or.inl ⟨hgs, rfl⟩)) hv
        rcases hv1 with hv1 | ⟨hv1, -⟩ | ⟨-, hv1⟩
        · rw [htm1] at hv1
          cases hv1
        · omega
        · exact hv1

/-- Witness for C4: the fresh game in PlayerInput with best score 0 and a click
on the expected button 1: the frame completes the round of length 1. -/
theorem bestScore_nondecreasing_witness :
    ∃ s1, WindowProc demoTiming (Msg.paint (demoSample 30 (some 1))) demoFreshInput =
        Except.ok s1 ∧
      demoFreshInput.bestScore ≤ s1.bestScore ∧ demoFreshInput.playbackLength ≤ s1.bestScore :=
  match h : WindowProc demoTiming (Msg.paint (demoSample 30 (some 1))) demoFreshInput with
  | Except.error _ => by cases h
  | Except.ok s1 =>
    ⟨s1, rfl,
      (bestScore_nondecreasing demoTiming (Msg.paint (demoSample 30 (some 1)))
        demoFreshInput s1 h).1,
      (bestScore_nondecreasing demoTiming (Msg.paint (demoSample 30 (some 1)))
        demoFreshInput s1 h).2 rfl rfl
        (by have h' := h; injection h' with h'; subst h'; rfl)
        (by have h' := h; injection h' with h'; subst h'; rfl)⟩

/-- C8. In every state reached from the initial state by any run of clicks,
keys (Escape included) and frames, with any counter values, hit-test results and
random values, `0 ≤ playbackLocation ≤ playbackLength`. -/
theorem cursor_within_length (t : Timing) (startTick : Int) (s : State)
    (h : Reachable t startTick s) :
    0 ≤ s.playbackLocation ∧ s.playbackLocation ≤ s.playbackLength :=
  ⟨(CursorInv_reachable h).2.2.1, (CursorInv_reachable h).2.2.2.1⟩

/-- Witness for C8: the state after the first element of a fresh game is lit. -/
theorem cursor_within_length_witness :
    0 ≤ (demoPlaybackState 1 1 21).playbackLocation ∧
      (demoPlaybackState 1 1 21).playbackLocation ≤ (demoPlaybackState 1 1 21).playbackLength :=
  cursor_within_length demoTiming 0 (demoPlaybackState 1 1 21) ⟨demoStart, demoStart_run⟩

/-- C9. If the random source returns only non-negative values, then in every
reachable state each element `playbackValues[k]` with `k < playbackLength` lies
in `[0,4)`, and a lit button is a valid button index `0..3`. -/
theorem sequence_values_in_range (t : Timing) (startTick : Int) (s : State)
    (h : ReachableNonneg t startTick s) :
    (∀ k : Fin 256, ((k.val : Nat) : Int) < s.playbackLength →
      0 ≤ s.playbackValues k ∧ s.playbackValues k < 4) ∧
    (s.currentLitButton ≠ 4 → 0 ≤ s.currentLitButton ∧ s.currentLitButton < 4) := by
  obtain ⟨hval, hl0, hl4⟩ := ValuesInv_reachable h
  exact ⟨fun k _ => hval k, fun hne => ⟨hl0, lt_of_le_of_ne hl4 hne⟩⟩

/-- Witness for C9: the state after the first element of a fresh game is lit. -/
theorem sequence_values_in_range_witness :
    (∀ k : Fin 256, ((k.val : Nat) : Int) < (demoPlaybackState 1 1 21).playbackLength →
      0 ≤ (demoPlaybackState 1 1 21).playbackValues k ∧
        (demoPlaybackState 1 1 21).playbackValues k < 4) ∧
    ((demoPlaybackState 1 1 21).currentLitButton ≠ 4 →
      0 ≤ (demoPlaybackState 1 1 21).currentLitButton ∧
        (demoPlaybackState 1 1 21).currentLitButton < 4) :=
  sequence_values_in_range demoTiming 0 (demoPlaybackState 1 1 21)
    ⟨demoStart, demoStart_nonneg, demoStart_run⟩

/-- C10, as stated, fails: after PLAY is clicked and the lockout and the first
deadline have passed, the first element (button 1) of the length-1 sequence is
lit, so `currentLitButton = 1` is not below `playbackLength = 1`. -/
theorem lit_button_reaches_length :
    Reachable demoTiming 0 (demoPlaybackState 1 1 21) ∧
      (demoPlaybackState 1 1 21).currentLitButton ≠ 4 ∧
      ¬ (demoPlaybackState 1 1 21).currentLitButton <
          (demoPlaybackState 1 1 21).playbackLength :=
  ⟨⟨demoStart, demoStart_run⟩, by decide, by decide⟩

/-- C10, amended. If the random source returns only non-negative values, then
in every reachable state a lit button (`currentLitButton ≠ 4`) is a valid
button index: `0 ≤ currentLitButton < 4`. -/
theorem lit_button_valid (t : Timing) (startTick : Int) (s : State)
    (h : ReachableNonneg t startTick s) (hlit : s.currentLitButton ≠ 4) :
    0 ≤ s.currentLitButton ∧ s.currentLitButton < 4 := by
  obtain ⟨-, hl0, hl4⟩ := ValuesInv_reachable h
  exact ⟨hl0, lt_of_le_of_ne hl4 hlit⟩

/-- Witness for the amended C10: the state with button 1 lit. -/
theorem lit_button_valid_witness :
    0 ≤ (demoPlaybackState 1 1 21).currentLitButton ∧
      (demoPlaybackState 1 1 21).currentLitButton < 4 :=
  lit_button_valid demoTiming 0 (demoPlaybackState 1 1 21)
    ⟨demoStart, demoStart_nonneg, demoStart_run⟩ (by decide)

/-! ## Faithful play -/

theorem inputCase_noclick (t : Timing) (inp : Sample) (s : State)
    (h : s.mouseClicked = false) : inputCase t inp s = Except.ok s := by
  unfold inputCase
  rw [buttonBody_noclick t inp 0 s h, ok_bind, buttonBody_noclick t inp 1 s h, ok_bind,
    buttonBody_noclick t inp 2 s h, ok_bind, buttonBody_noclick t inp 3 s h]

theorem inputCase_nohit (t : Timing) (inp : Sample) (s : State)
    (h : ∀ j, inp.inButton j = false) : inputCase t inp s = Except.ok s := by
  unfold inputCase
  rw [buttonBody_miss t inp 0 s (h 0), ok_bind, buttonBody_miss t inp 1 s (h 1), ok_bind,
    buttonBody_miss t inp 2 s (h 2), ok_bind, buttonBody_miss t inp 3 s (h 3)]

theorem expected_eq_some {s : State} {v : Int} (h : expected s = some v) :
    readValue s.playbackValues s.playbackLocation = Except.ok v := by
  unfold expected at h
  split at h
  · cases h
  · next w hw =>
    injection h with h
    rw [hw, h]

/-- A faithfully played PlayerInput frame leaves the state alone, advances the
cursor or completes the round. -/
theorem inputCase_faithful {t : Timing} {inp : Sample} {u v : State}
    (hf : u.mouseClicked = true →
      ∀ j : Fin 4, inp.inButton j = true → expected u = some ((j.val : Nat) : Int))
    (h : inputCase t inp u = Except.ok v) :
    (v.gameState = u.gameState ∧ v.playbackLength = u.playbackLength) ∨
      (v.gameState = 1 ∧ v.playbackLength = u.playbackLength + 1) := by
  by_cases hclk : u.mouseClicked = true
  · by_cases hex : ∃ i, inp.inButton i = true
    · obtain ⟨i, hi⟩ := hex
      have hread := expected_eq_some (hf hclk i hi)
      have hhit : ∀ j, inp.inButton j = decide (j = i) := by
        intro j
        by_cases hj : inp.inButton j = true
        · have h1 := hf hclk j hj
          have h2 := hf hclk i hi
          rw [h1] at h2
          injection h2 with h2
          have : j = i := Fin.ext (by exact_mod_cast h2)
          simp [this, hi]
        · have hji : j ≠ i := by
            intro hji
            exact hj (hji ▸ hi)
          simp [hji, hj]
      rw [inputCase_single t inp i u hhit] at h
      rcases buttonBody_cases h with rfl | ⟨hne, rfl⟩ | ⟨hb, hend, rfl⟩ | ⟨w, hw, hne, rfl⟩
      · exact Or.inl ⟨rfl, rfl⟩
      · exact Or.inl ⟨rfl, rfl⟩
      · exact Or.inr ⟨rfl, rfl⟩
      · rw [hread] at hw
        injection hw with hw
        exact absurd hw hne
    · have hno : ∀ j, inp.inButton j = false := by
        intro j
        by_contra hj
        exact hex ⟨j, by simpa using hj⟩
      rw [inputCase_nohit t inp u hno] at h
      injection h with h
      subst h
      exact Or.inl ⟨rfl, rfl⟩
  · have hclk' : u.mouseClicked = false := by simpa using hclk
    rw [inputCase_noclick t inp u hclk'] at h
    injection h with h
    subst h
    exact Or.inl ⟨rfl, rfl⟩

/-- One faithfully played message adds to the length exactly 1 if it takes the
game from PlayerInput to SequencePlayback and 0 otherwise. -/
theorem length_step {t : Timing} {m : Msg} {u u1 : State}
    (hf : faithfulMsg u m) (h : WindowProc t m u = Except.ok u1) :
    u1.playbackLength = u.playbackLength +
      ((if u.gameState = 2 ∧ u1.gameState = 1 then 1 else 0 : Nat) : Int) := by
  cases m with
  | lButtonUp =>
    simp only [WindowProc] at h
    injection h with h
    subst h
    by_cases hg : u.gameState = 2 <;> simp [hg]
  | keyDown w =>
    have hw : w ≠ VK_ESCAPE := hf
    simp only [WindowProc, hw, if_false] at h
    injection h with h
    subst h
    by_cases hg : u.gameState = 2 <;> simp [hg]
  | other =>
    simp only [WindowProc] at h
    injection h with h
    subst h
    by_cases hg : u.gameState = 2 <;> simp [hg]
  | paint inp =>
    have hf' : u.gameState = 2 → u.bOutstandingTimer = false → u.mouseClicked = true →
      ∀ j : Fin 4, inp.inButton j = true → expected u = some ((j.val : Nat) : Int) := hf
    simp only [WindowProc] at h
    split at h
    · next hgs =>
      have hne : ¬ (u.gameState = 2 ∧ u1.gameState = 1) := by omega
      rcases DrawMenu_cases h with rfl | rfl <;> simp [hgs]
    · obtain ⟨v, rfl, hv⟩ := DrawGame_cases h
      rcases hv with rfl | ⟨-, rfl⟩ | ⟨-, hgs, hv⟩ | ⟨htm, hgs, hv⟩
      · by_cases hg : v.gameState = 2 <;> simp [hg]
      · by_cases hg : u.gameState = 2 <;> simp [hg]
      · rcases playbackCase_cases hv with rfl | ⟨hb, hl, rfl⟩ | ⟨hl, hend, rfl⟩ |
          ⟨hl, hend, rfl⟩ <;> simp [hgs]
      · rcases inputCase_faithful (hf' hgs htm) hv with ⟨h1, h2⟩ | ⟨h1, h2⟩
        · simp [hgs, h1, h2]
        · simp [hgs, h1, h2]

theorem length_run {t : Timing} :
    ∀ (ms : List Msg) (s s1 : State), faithfulRun t ms s = true →
      runMsgs t ms s = Except.ok s1 →
      s1.playbackLength = s.playbackLength + ((roundsCompleted t ms s : Nat) : Int) := by
  intro ms
  induction ms with
  | nil =>
    intro s s1 _ h
    simp only [runMsgs] at h
    injection h with h
    subst h
    simp [roundsCompleted]
  | cons m ms ih =>
    intro s s1 hf h
    simp only [faithfulRun, Bool.and_eq_true, decide_eq_true_eq] at hf
    simp only [runMsgs] at h
    simp only [roundsCompleted]
    cases hw : WindowProc t m s with
    | error e =>
      rw [hw] at h
      cases h
    | ok u =>
      rw [hw] at h
      rw [hw] at hf
      have h1 := length_step hf.1 hw
      have h2 := ih u s1 hf.2 h
      simp only
      rw [h2, h1]
      push_cast
      ring

/-! ### Every round count up to 255 is attainable -/

theorem runMsgs_append (t : Timing) :
    ∀ (a b : List Msg) (s u : State), runMsgs t a s = Except.ok u →
      runMsgs t (a ++ b) s = runMsgs t b u := by
  intro a
  induction a with
  | nil =>
    intro b s u h
    simp only [runMsgs] at h
    injection h with h
    subst h
    rfl
  | cons m ms ih =>
    intro b s u h
    simp only [runMsgs, List.cons_append] at h ⊢
    cases hw : WindowProc t m s with
    | error e =>
      rw [hw] at h
      cases h
    | ok v =>
      rw [hw] at h
      exact ih b v u h

theorem faithfulRun_append (t : Timing) :
    ∀ (a b : List Msg) (s u : State), runMsgs t a s = Except.ok u →
      faithfulRun t (a ++ b) s = (faithfulRun t a s && faithfulRun t b u) := by
  intro a
  induction a with
  | nil =>
    intro b s u h
    simp only [runMsgs] at h
    injection h with h
    subst h
    simp [faithfulRun]
  | cons m ms ih =>
    intro b s u h
    simp only [runMsgs] at h
    simp only [faithfulRun, List.cons_append]
    cases hw : WindowProc t m s with
    | error e =>
      rw [hw] at h
      cases h
    | ok v =>
      rw [hw] at h
      change (decide (faithfulMsg s m) && faithfulRun t (ms ++ b) v) = _
      rw [ih b v u h, Bool.and_assoc]

theorem roundsCompleted_append (t : Timing) :
    ∀ (a b : List Msg) (s u : State), runMsgs t a s = Except.ok u →
      roundsCompleted t (a ++ b) s = roundsCompleted t a s + roundsCompleted t b u := by
  intro a
  induction a with
  | nil =>
    intro b s u h
    simp only [runMsgs] at h
    injection h with h
    subst h
    simp [roundsCompleted]
  | cons m ms ih =>
    intro b s u h
    simp only [runMsgs] at h
    simp only [roundsCompleted, List.cons_append]
    cases hw : WindowProc t m s with
    | error e =>
      rw [hw] at h
      cases h
    | ok v =>
      rw [hw] at h
      change _ + roundsCompleted t (ms ++ b) v = _
      rw [ih b v u h, Nat.add_assoc]

theorem Plays_refl (t : Timing) (s : State) : Plays t s 0 s :=
  ⟨[], rfl, rfl, rfl⟩

theorem Plays_trans {t : Timing} {s u v : State} {n k : Nat}
    (h1 : Plays t s n u) (h2 : Plays t u k v) : Plays t s (n + k) v := by
  obtain ⟨a, ha1, ha2, ha3⟩ := h1
  obtain ⟨b, hb1, hb2, hb3⟩ := h2
  refine ⟨a ++ b, ?_, ?_, ?_⟩
  · rw [faithfulRun_append t a b s u ha2, ha1, hb1]
    rfl
  · rw [runMsgs_append t a b s u ha2, hb2]
  · rw [roundsCompleted_append t a b s u ha2, ha3, hb3]

theorem Plays_single {t : Timing} {m : Msg} {s u : State} (hf : faithfulMsg s m)
    (h : WindowProc t m s = Except.ok u) :
    Plays t s (if s.gameState = 2 ∧ u.gameState = 1 then 1 else 0) u :=
  ⟨[m], by simp [faithfulRun, hf, h], by simp [runMsgs, h], by simp [roundsCompleted, h]⟩

theorem faithful_outside_input {s : State} (inp : Sample) (h : s.gameState ≠ 2) :
    faithfulMsg s (Msg.paint inp) := by
  intro hgs
  exact absurd hgs h

theorem Plays_frame {t : Timing} {inp : Sample} {s u : State} (hgs : s.gameState ≠ 2)
    (h : WindowProc t (Msg.paint inp) s = Except.ok u) : Plays t s 0 u := by
  have hp := Plays_single (faithful_outside_input inp hgs) h
  simpa [hgs] using hp

theorem light_frame (t : Timing) (s : State) (hgs : s.gameState = 1)
    (htm : s.bOutstandingTimer = false) (hlit : s.currentLitButton = 4)
    (hb : 0 ≤ s.playbackLocation ∧ s.playbackLocation < 256) :
    ∃ u, WindowProc t (Msg.paint (demoSample (s.CurrentTimerFinished + 1) none)) s =
        Except.ok u ∧
      u.gameState = 1 ∧ u.bOutstandingTimer = false ∧
      u.currentLitButton = s.playbackValues ⟨s.playbackLocation.toNat, by omega⟩ ∧
      u.playbackLocation = s.playbackLocation + 1 ∧
      u.playbackLength = s.playbackLength ∧ u.playbackValues = s.playbackValues := by
  simp [WindowProc, hgs, DrawGame, htm, playbackCase, hlit, readValue, hb, demoSample]

theorem off_frame_end (t : Timing) (s : State) (hgs : s.gameState = 1)
    (htm : s.bOutstandingTimer = false) (hlit : s.currentLitButton ≠ 4)
    (hend : s.playbackLocation = s.playbackLength) :
    ∃ u, WindowProc t (Msg.paint (demoSample (s.CurrentTimerFinished + 1) none)) s =
        Except.ok u ∧
      u.gameState = 2 ∧ u.bOutstandingTimer = false ∧ u.currentLitButton = 4 ∧
      u.playbackLocation = 0 ∧
      u.playbackLength = s.playbackLength ∧ u.playbackValues = s.playbackValues := by
  simp [WindowProc, hgs, DrawGame, htm, playbackCase, hlit, hend, demoSample]

theorem off_frame_more (t : Timing) (s : State) (hgs : s.gameState = 1)
    (htm : s.bOutstandingTimer = false) (hlit : s.currentLitButton ≠ 4)
    (hend : s.playbackLocation ≠ s.playbackLength) :
    ∃ u, WindowProc t (Msg.paint (demoSample (s.CurrentTimerFinished + 1) none)) s =
        Except.ok u ∧
      u.gameState = 1 ∧ u.bOutstandingTimer = false ∧ u.currentLitButton = 4 ∧
      u.playbackLocation = s.playbackLocation ∧
      u.playbackLength = s.playbackLength ∧ u.playbackValues = s.playbackValues := by
  simp [WindowProc, hgs, DrawGame, htm, playbackCase, hlit, hend, demoSample]

/-- From any point of SequencePlayback with no button lit, frames sampled just
after each deadline replay the rest of the sequence and open PlayerInput. -/
theorem playback_all (t : Timing) :
    ∀ (d : Nat) (s : State), s.gameState = 1 → s.bOutstandingTimer = false →
      s.currentLitButton = 4 → 0 ≤ s.playbackLocation →
      s.playbackLocation + ((d : Int) + 1) = s.playbackLength → s.playbackLength ≤ 256 →
      (∀ k, s.playbackValues k ≠ 4) →
      ∃ u, Plays t s 0 u ∧ u.gameState = 2 ∧ u.bOutstandingTimer = false ∧
        u.currentLitButton = 4 ∧ u.playbackLocation = 0 ∧
        u.playbackLength = s.playbackLength ∧ u.playbackValues = s.playbackValues := by
  intro d
  induction d with
  | zero =>
    intro s hgs htm hlit h0 hd hlen hval
    have hd' : s.playbackLocation + 1 = s.playbackLength := by
      have : ((0 : Nat) : Int) = 0 := rfl
      omega
    have hb : 0 ≤ s.playbackLocation ∧ s.playbackLocation < 256 := ⟨h0, by omega⟩
    obtain ⟨s1, h1, g1, t1, l1, c1, n1, v1⟩ := light_frame t s hgs htm hlit hb
    have p1 := Plays_frame (by omega) h1
    obtain ⟨s2, h2, g2, t2, l2, c2, n2, v2⟩ := off_frame_end t s1 g1 t1
      (by rw [l1]; exact hval _) (by omega)
    have p2 := Plays_frame (by omega) h2
    exact ⟨s2, Plays_trans p1 p2, g2, t2, l2, c2, by omega, by rw [v2, v1]⟩
  | succ d ih =>
    intro s hgs htm hlit h0 hd hlen hval
    push_cast at hd
    have hb : 0 ≤ s.playbackLocation ∧ s.playbackLocation < 256 := ⟨h0, by omega⟩
    obtain ⟨s1, h1, g1, t1, l1, c1, n1, v1⟩ := light_frame t s hgs htm hlit hb
    have p1 := Plays_frame (by omega) h1
    obtain ⟨s2, h2, g2, t2, l2, c2, n2, v2⟩ := off_frame_more t s1 g1 t1
      (by rw [l1]; exact hval _) (by omega)
    have p2 := Plays_frame (by omega) h2
    obtain ⟨u, pu, gu, tu, lu, cu, nu, vu⟩ := ih s2 g2 t2 l2 (by omega) (by omega) (by omega)
      (by rw [v2, v1]; exact hval)
    exact ⟨u, Plays_trans (Plays_trans p1 p2) pu, gu, tu, lu, cu, by omega,
      by rw [vu, v2, v1]⟩

theorem click_frame_advance (t : Timing) (s : State) (i : Fin 4) (now : Int)
    (hgs : s.gameState = 2) (htm : s.bOutstandingTimer = false)
    (hread : readValue s.playbackValues s.playbackLocation = Except.ok ((i.val : Nat) : Int))
    (hmore : s.playbackLocation + 1 ≠ s.playbackLength) :
    ∃ u, Plays t s 0 u ∧ u.gameState = 2 ∧ u.bOutstandingTimer = false ∧
      u.currentLitButton = s.currentLitButton ∧
      u.playbackLocation = s.playbackLocation + 1 ∧
      u.playbackLength = s.playbackLength ∧ u.playbackValues = s.playbackValues := by
  have hc : WindowProc t Msg.lButtonUp s = Except.ok { s with mouseClicked := true } := rfl
  have pc := Plays_single (show faithfulMsg s Msg.lButtonUp from trivial) hc
  have hhit : ∀ j, (demoSample now (some i)).inButton j = decide (j = i) := by
    intro j
    simp [demoSample]
  have hi : (demoSample now (some i)).inButton i = true := by simp [demoSample]
  have hf : faithfulMsg { s with mouseClicked := true } (Msg.paint (demoSample now (some i))) := by
    intro _ _ _ j hj
    rw [hhit j] at hj
    have hji : j = i := by simpa using hj
    simp only [expected, hread, hji]
  have hp : WindowProc t (Msg.paint (demoSample now (some i))) { s with mouseClicked := true } =
      Except.ok { s with playbackLocation := s.playbackLocation + 1, mouseClicked := false } := by
    simp only [WindowProc, hgs]
    simp only [DrawGame, htm, inputCase_single t _ i _ hhit, buttonBody, hi, hread]
    simp [hmore]
  have pc0 : Plays t s 0 { s with mouseClicked := true } := by
    simpa [hgs] using pc
  have pp : Plays t { s with mouseClicked := true } 0
      { s with playbackLocation := s.playbackLocation + 1, mouseClicked := false } := by
    simpa [hgs] using Plays_single hf hp
  exact ⟨{ s with playbackLocation := s.playbackLocation + 1, mouseClicked := false },
    Plays_trans pc0 pp, hgs, htm, rfl, rfl, rfl, rfl⟩

theorem click_frame_complete (t : Timing) (s : State) (i : Fin 4) (now : Int)
    (hgs : s.gameState = 2) (htm : s.bOutstandingTimer = false)
    (hread : readValue s.playbackValues s.playbackLocation = Except.ok ((i.val : Nat) : Int))
    (hend : s.playbackLocation + 1 = s.playbackLength) (hlen : s.playbackLength < 256)
    (hval : ∀ k, 0 ≤ s.playbackValues k ∧ s.playbackValues k < 4) :
    ∃ u, Plays t s 1 u ∧ u.gameState = 1 ∧ u.bOutstandingTimer = false ∧
      u.currentLitButton = s.currentLitButton ∧ u.playbackLocation = 0 ∧
      u.playbackLength = s.playbackLength + 1 ∧
      ∀ k, 0 ≤ u.playbackValues k ∧ u.playbackValues k < 4 := by
  obtain ⟨hb, -⟩ := readValue_ok hread
  have hL0 : 0 ≤ s.playbackLength := by omega
  have hc : WindowProc t Msg.lButtonUp s = Except.ok { s with mouseClicked := true } := rfl
  have pc0 : Plays t s 0 { s with mouseClicked := true } := by
    simpa [hgs] using Plays_single (show faithfulMsg s Msg.lButtonUp from trivial) hc
  have hhit : ∀ j, (demoSample now (some i)).inButton j = decide (j = i) := by
    intro j
    simp [demoSample]
  have hi : (demoSample now (some i)).inButton i = true := by simp [demoSample]
  have hf : faithfulMsg { s with mouseClicked := true } (Msg.paint (demoSample now (some i))) := by
    intro _ _ _ j hj
    rw [hhit j] at hj
    have hji : j = i := by simpa using hj
    simp only [expected, hread, hji]
  have hw : writeValue s.playbackValues s.playbackLength (Int.tmod 7 4) =
      Except.ok (Function.update s.playbackValues ⟨s.playbackLength.toNat, by omega⟩
        (Int.tmod 7 4)) := by
    simp [writeValue, hL0, hlen]
  have hp : WindowProc t (Msg.paint (demoSample now (some i))) { s with mouseClicked := true } =
      Except.ok { s with
        CurrentTimerFinished := now + t.ButtonLitTicks
        playbackValues := Function.update s.playbackValues ⟨s.playbackLength.toNat, by omega⟩
          (Int.tmod 7 4)
        playbackLocation := 0
        bestScore := if s.bestScore > s.playbackLength then s.bestScore else s.playbackLength
        playbackLength := s.playbackLength + 1
        gameState := 1
        mouseClicked := false } := by
    simp only [WindowProc, hgs]
    simp only [DrawGame, htm, inputCase_single t _ i _ hhit, buttonBody, hi, hread]
    simp [hend, hw, demoSample]
  obtain ⟨u, hu, gu, tu, lu, cu, nu, vu⟩ : ∃ u,
      WindowProc t (Msg.paint (demoSample now (some i))) { s with mouseClicked := true } =
        Except.ok u ∧
      u.gameState = 1 ∧ u.bOutstandingTimer = false ∧
      u.currentLitButton = s.currentLitButton ∧ u.playbackLocation = 0 ∧
      u.playbackLength = s.playbackLength + 1 ∧
      u.playbackValues = Function.update s.playbackValues ⟨s.playbackLength.toNat, by omega⟩
        (Int.tmod 7 4) := ⟨_, hp, rfl, htm, rfl, rfl, rfl, rfl⟩
  have pp : Plays t { s with mouseClicked := true } 1 u := by
    simpa [hgs, gu] using Plays_single hf hu
  refine ⟨u, Plays_trans pc0 pp, gu, tu, lu, cu, nu, ?_⟩
  intro k
  rw [vu]
  rcases update_apply_cases s.playbackValues ⟨s.playbackLength.toNat, by omega⟩ k
    (Int.tmod 7 4) with hk | hk
  · rw [hk]
    decide
  · rw [hk]
    exact hval k

theorem expected_button (s : State) (h0 : 0 ≤ s.playbackLocation)
    (h256 : s.playbackLocation < 256)
    (hval : ∀ k, 0 ≤ s.playbackValues k ∧ s.playbackValues k < 4) :
    ∃ i : Fin 4,
      readValue s.playbackValues s.playbackLocation = Except.ok ((i.val : Nat) : Int) := by
  have hlt : s.playbackLocation.toNat < 256 := by omega
  have hv := hval ⟨s.playbackLocation.toNat, hlt⟩
  have hv4 : (s.playbackValues ⟨s.playbackLocation.toNat, hlt⟩).toNat < 4 := by omega
  refine ⟨⟨(s.playbackValues ⟨s.playbackLocation.toNat, hlt⟩).toNat, hv4⟩, ?_⟩
  rw [readValue_of_bounds _ _ h0 h256]
  show Except.ok _ = Except.ok (((s.playbackValues ⟨s.playbackLocation.toNat, hlt⟩).toNat : Nat) : Int)
  rw [Int.toNat_of_nonneg hv.1]

/-- From any point of PlayerInput, clicking the expected button for each
remaining position completes the round. -/
theorem input_all (t : Timing) :
    ∀ (d : Nat) (s : State), s.gameState = 2 → s.bOutstandingTimer = false →
      s.currentLitButton = 4 → 0 ≤ s.playbackLocation →
      s.playbackLocation + ((d : Int) + 1) = s.playbackLength → s.playbackLength < 256 →
      (∀ k, 0 ≤ s.playbackValues k ∧ s.playbackValues k < 4) →
      ∃ u, Plays t s 1 u ∧ u.gameState = 1 ∧ u.bOutstandingTimer = false ∧
        u.currentLitButton = 4 ∧ u.playbackLocation = 0 ∧
        u.playbackLength = s.playbackLength + 1 ∧
        ∀ k, 0 ≤ u.playbackValues k ∧ u.playbackValues k < 4 := by
  intro d
  induction d with
  | zero =>
    intro s hgs htm hlit h0 hd hlen hval
    have hd' : s.playbackLocation + 1 = s.playbackLength := by
      have : ((0 : Nat) : Int) = 0 := rfl
      omega
    have h256 : s.playbackLocation < 256 := by omega
    obtain ⟨i, hread⟩ := expected_button s h0 h256 hval
    obtain ⟨u, pu, gu, tu, lu, cu, nu, vu⟩ :=
      click_frame_complete t s i 0 hgs htm hread hd' hlen hval
    exact ⟨u, pu, gu, tu, by rw [lu, hlit], cu, nu, vu⟩
  | succ d ih =>
    intro s hgs htm hlit h0 hd hlen hval
    push_cast at hd
    have h256 : s.playbackLocation < 256 := by omega
    obtain ⟨i, hread⟩ := expected_button s h0 h256 hval
    obtain ⟨s1, p1, g1, t1, l1, c1, n1, v1⟩ :=
      click_frame_advance t s i 0 hgs htm hread (by omega)
    obtain ⟨u, pu, gu, tu, lu, cu, nu, vu⟩ := ih s1 g1 t1 (by rw [l1, hlit]) (by omega)
      (by omega) (by omega) (by rw [v1]; exact hval)
    have p := Plays_trans p1 pu
    exact ⟨u, by simpa using p, gu, tu, lu, cu, by omega, vu⟩

/-- Clicking PLAY in the menu and letting the lockout pass starts the first
playback. -/
theorem menu_start (t : Timing) (startTick : Int) :
    ∃ u, Plays t (initialState t startTick) 0 u ∧ u.gameState = 1 ∧
      u.bOutstandingTimer = false ∧ u.currentLitButton = 4 ∧ u.playbackLocation = 0 ∧
      u.playbackLength = 1 ∧ ∀ k, 0 ≤ u.playbackValues k ∧ u.playbackValues k < 4 := by
  have hc : WindowProc t Msg.lButtonUp (initialState t startTick) =
      Except.ok { initialState t startTick with mouseClicked := true } := rfl
  have pc : Plays t (initialState t startTick) 0
      { initialState t startTick with mouseClicked := true } := by
    simpa [initialState] using
      Plays_single (show faithfulMsg (initialState t startTick) Msg.lButtonUp from trivial) hc
  have hm : WindowProc t (Msg.paint (demoSample 0 none))
      { initialState t startTick with mouseClicked := true } =
      Except.ok { initialState t startTick with
        gameState := 1
        bOutstandingTimer := true
        CurrentTimerFinished := 0 + t.GameStateChangedTicks
        mouseClicked := false } := by
    simp [WindowProc, initialState, DrawMenu, demoSample]
  have pm := Plays_frame (by simp [initialState]) hm
  have hl : WindowProc t (Msg.paint (demoSample (0 + t.GameStateChangedTicks + 1) none))
      { initialState t startTick with
        gameState := 1
        bOutstandingTimer := true
        CurrentTimerFinished := 0 + t.GameStateChangedTicks
        mouseClicked := false } =
      Except.ok { initialState t startTick with
        gameState := 1
        bOutstandingTimer := false
        CurrentTimerFinished := 0 + t.GameStateChangedTicks
        mouseClicked := false } := by
    simp [WindowProc, DrawGame, demoSample]
  have pl := Plays_frame (by simp) hl
  refine ⟨_, Plays_trans (Plays_trans pc pm) pl, rfl, rfl, rfl, rfl, rfl, ?_⟩
  exact (ValuesInv_initial t startTick).1

/-- Every number of rounds up to 255 can be completed by faithful play. -/
theorem rounds_attainable (t : Timing) (startTick : Int) :
    ∀ N : Nat, N ≤ 255 →
      ∃ u, Plays t (initialState t startTick) N u ∧ u.gameState = 1 ∧
        u.bOutstandingTimer = false ∧ u.currentLitButton = 4 ∧ u.playbackLocation = 0 ∧
        u.playbackLength = (N : Int) + 1 ∧
        ∀ k, 0 ≤ u.playbackValues k ∧ u.playbackValues k < 4 := by
  intro N
  induction N with
  | zero =>
    intro _
    obtain ⟨u, pu, gu, tu, lu, cu, nu, vu⟩ := menu_start t startTick
    exact ⟨u, pu, gu, tu, lu, cu, by simpa using nu, vu⟩
  | succ N ih =>
    intro hN
    obtain ⟨u, pu, gu, tu, lu, cu, nu, vu⟩ := ih (by omega)
    have hne : ∀ k, u.playbackValues k ≠ 4 := fun k => by
      have := vu k
      omega
    obtain ⟨v, pv, gv, tv, lv, cv, nv, vv⟩ := playback_all t N u gu tu lu (by omega)
      (by omega) (by omega) hne
    obtain ⟨w, pw, gw, tw, lw, cw, nw, vw⟩ := input_all t N v gv tv lv (by omega)
      (by omega) (by omega) (by rw [vv]; exact vu)
    refine ⟨w, ?_, gw, tw, lw, cw, by push_cast; omega, vw⟩
    have p := Plays_trans (Plays_trans pu pv) pw
    simpa using p

/-- C1. Start from the initial state (`playbackLength = 1`,
`playbackLocation = 0`) and take any run of messages that is played faithfully
(no Escape, and every click processed in PlayerInput is on the expected button
`playbackValues[playbackLocation]`).  If the run completes `N` rounds, then the
sequence length after it is exactly `1 + N`, and `N ≤ 255`; and for every
`N ≤ 255` there is such a run. -/
theorem length_after_rounds (t : Timing) (startTick : Int) (N : Nat) :
    (∀ (ms : List Msg) (s : State),
      runMsgs t ms (initialState t startTick) = Except.ok s →
      faithfulRun t ms (initialState t startTick) = true →
      roundsCompleted t ms (initialState t startTick) = N →
      s.playbackLength = 1 + (N : Int) ∧ N ≤ 255) ∧
    (N ≤ 255 → ∃ (ms : List Msg) (s : State),
      runMsgs t ms (initialState t startTick) = Except.ok s ∧
      faithfulRun t ms (initialState t startTick) = true ∧
      roundsCompleted t ms (initialState t startTick) = N) := by
  constructor
  · intro ms s hrun hf hN
    have h1 := length_run ms _ s hf hrun
    rw [hN] at h1
    have h2 : s.playbackLength ≤ 256 := (CursorInv_reachable ⟨ms, hrun⟩).2.1
    have h3 : s.playbackLength = 1 + (N : Int) := by
      rw [h1]
      rfl
    exact ⟨h3, by omega⟩
  · intro hN
    obtain ⟨u, ⟨ms, hf, hrun, hcount⟩, -⟩ := rounds_attainable t startTick N hN
    exact ⟨ms, u, hrun, hf, hcount⟩

/-- Witness for C1: a fresh start followed by one completed round (`N = 1`). -/
theorem length_after_rounds_witness :
    ∃ s, runMsgs demoTiming demoRound (initialState demoTiming 0) = Except.ok s ∧
      s.playbackLength = 1 + ((1 : Nat) : Int) ∧ 1 ≤ 255 :=
  match h : runMsgs demoTiming demoRound (initialState demoTiming 0) with
  | Except.error _ => by cases h
  | Except.ok s =>
    ⟨s, rfl, (length_after_rounds demoTiming 0 1).1 demoRound s h rfl rfl⟩

/-! ## The timer gate -/

/-- A game frame sampled no later than the deadline, during the lockout or in
SequencePlayback, changes nothing but the click flag. -/
theorem DrawGame_waiting (t : Timing) (inp : Sample) (s : State)
    (hphase : s.bOutstandingTimer = true ∨ s.gameState = 1)
    (hnow : inp.tickCountNow ≤ s.CurrentTimerFinished) :
    DrawGame t inp s = Except.ok { s with mouseClicked := false } := by
  have hn : ¬ s.CurrentTimerFinished < inp.tickCountNow := not_lt.mpr hnow
  by_cases htm : s.bOutstandingTimer = true
  · simp [DrawGame, htm, hn]
  · have htm' : s.bOutstandingTimer = false := by simpa using htm
    rcases hphase with h | hgs
    · exact absurd h htm
    · simp [DrawGame, htm', hgs, playbackCase, hn]

/-- Frames sampled no later than the deadline leave everything but the click
flag as it is, however many of them there are. -/
theorem waiting_frames (t : Timing) :
    ∀ (inps : List Sample) (s : State),
      (s.bOutstandingTimer = true ∨ s.gameState = 1) → s.gameState ≠ 0 →
      (∀ x ∈ inps, x.tickCountNow ≤ s.CurrentTimerFinished) →
      ∃ s0, runMsgs t (inps.map Msg.paint) s = Except.ok s0 ∧
        s0 = { s with mouseClicked := s0.mouseClicked } := by
  intro inps
  induction inps with
  | nil =>
    intro s _ _ _
    exact ⟨s, rfl, rfl⟩
  | cons x xs ih =>
    intro s hphase hgs hall
    have hx := hall x (List.mem_cons_self _ _)
    have hstep : WindowProc t (Msg.paint x) s = Except.ok { s with mouseClicked := false } := by
      simp only [WindowProc, hgs, if_false]
      exact DrawGame_waiting t x s hphase hx
    obtain ⟨s0, hrun, hs0⟩ := ih { s with mouseClicked := false } hphase hgs
      (fun y hy => hall y (List.mem_cons_of_mem _ hy))
    refine ⟨s0, ?_, ?_⟩
    · simp only [List.map_cons, runMsgs, hstep]
      exact hrun
    · rw [hs0]

/-- C5, as stated, fails at `now = deadline`.  After PLAY is clicked at tick 10
the lockout deadline is 15; the frame sampled at tick 15 leaves the lockout
flag set.  In SequencePlayback with deadline 21 and no button lit, the frame
sampled at tick 21 lights nothing and keeps the deadline. -/
theorem deadline_equal_does_not_fire :
    summary (runMsgs demoTiming
        [Msg.lButtonUp, Msg.paint (demoSample 10 none), Msg.paint (demoSample 15 none)]
        (initialState demoTiming 0)) = some (4, 1, 0, 0, 1, true, 15) ∧
      summary (DrawGame demoTiming (demoSample 21 none) (demoPlaybackState 4 0 21)) =
        some (4, 1, 0, 0, 1, false, 21) :=
  ⟨rfl, rfl⟩

/-- C5, amended.  For the lockout timer and for the SequencePlayback timer, a
game frame sampled at `now ≤ deadline` changes nothing but the click flag, and
so do any number of such frames in a row; a frame sampled at `now > deadline`
performs the scheduled transition: it clears the lockout flag, or lights the
next element, or turns the light off. -/
theorem deadline_strict (t : Timing) (inp : Sample) (s : State)
    (hphase : s.bOutstandingTimer = true ∨ s.gameState = 1) :
    (inp.tickCountNow ≤ s.CurrentTimerFinished →
      DrawGame t inp s = Except.ok { s with mouseClicked := false }) ∧
    (∀ inps : List Sample, s.gameState ≠ 0 →
      (∀ x ∈ inps, x.tickCountNow ≤ s.CurrentTimerFinished) →
      ∃ s0, runMsgs t (inps.map Msg.paint) s = Except.ok s0 ∧
        s0 = { s with mouseClicked := s0.mouseClicked }) ∧
    (s.CurrentTimerFinished < inp.tickCountNow →
      (s.bOutstandingTimer = true →
        DrawGame t inp s =
          Except.ok { s with bOutstandingTimer := false, mouseClicked := false }) ∧
      (s.bOutstandingTimer = false → s.currentLitButton = 4 →
        ∀ v, readValue s.playbackValues s.playbackLocation = Except.ok v →
          DrawGame t inp s = Except.ok { s with
            currentLitButton := v
            CurrentTimerFinished := inp.tickCountNow + t.ButtonLitTicks
            playbackLocation := s.playbackLocation + 1
            mouseClicked := false }) ∧
      (s.bOutstandingTimer = false → s.currentLitButton ≠ 4 →
        ∃ s1, DrawGame t inp s = Except.ok s1 ∧ s1.currentLitButton = 4 ∧
          s1.CurrentTimerFinished = inp.tickCountNow + t.AllButtonsOffTicks)) := by
  refine ⟨DrawGame_waiting t inp s hphase, ?_, ?_⟩
  · intro inps hgs hall
    exact waiting_frames t inps s hphase hgs hall
  · intro hdl
    refine ⟨?_, ?_, ?_⟩
    · intro htm
      simp [DrawGame, htm, hdl]
    · intro htm hlit v hread
      have hgs : s.gameState = 1 := by
        rcases hphase with h | h
        · rw [htm] at h
          cases h
        · exact h
      simp [DrawGame, htm, hgs, playbackCase, hdl, hlit, hread]
    · intro htm hlit
      have hgs : s.gameState = 1 := by
        rcases hphase with h | h
        · rw [htm] at h
          cases h
        · exact h
      by_cases hend : s.playbackLocation = s.playbackLength
      · simp [DrawGame, htm, hgs, playbackCase, hdl, hlit, hend]
      · simp [DrawGame, htm, hgs, playbackCase, hdl, hlit, hend]

/-- Witness for the amended C5: SequencePlayback with deadline 21 and no button
lit; the frame at tick 21 waits, the frame at tick 22 lights button 1. -/
theorem deadline_strict_witness :
    DrawGame demoTiming (demoSample 21 none) (demoPlaybackState 4 0 21) =
        Except.ok { demoPlaybackState 4 0 21 with mouseClicked := false } ∧
      DrawGame demoTiming (demoSample 22 none) (demoPlaybackState 4 0 21) =
        Except.ok { demoPlaybackState 4 0 21 with
          currentLitButton := 1
          CurrentTimerFinished := (demoSample 22 none).tickCountNow + demoTiming.ButtonLitTicks
          playbackLocation := (demoPlaybackState 4 0 21).playbackLocation + 1
          mouseClicked := false } :=
  ⟨(deadline_strict demoTiming (demoSample 21 none) (demoPlaybackState 4 0 21)
      (Or.inr rfl)).1 (by decide),
    ((deadline_strict demoTiming (demoSample 22 none) (demoPlaybackState 4 0 21)
      (Or.inr rfl)).2.2 (by decide)).2.1 rfl rfl 1 rfl⟩

/-! ## The first element of the sequence -/

theorem firstValue_buttonBody {t : Timing} {inp : Sample} (j : Fin 4) (u u1 : State)
    (hu : (u.playbackLocation < u.playbackLength ∧ CursorInv u) ∧ u.playbackValues 0 = 1)
    (h : buttonBody t inp j u = Except.ok u1) :
    (u1.playbackLocation < u1.playbackLength ∧ CursorInv u1) ∧ u1.playbackValues 0 = 1 := by
  refine ⟨CursorInv_buttonBody j u u1 hu.1 h, ?_⟩
  obtain ⟨⟨-, -, -, h0, -⟩, hfirst⟩ := hu
  rcases buttonBody_cases h with rfl | ⟨hne, rfl⟩ | ⟨hb, hend, rfl⟩ | ⟨_, _, _, rfl⟩
  · exact hfirst
  · exact hfirst
  · have hidx : (0 : Fin 256) ≠ ⟨u.playbackLength.toNat, by omega⟩ := by
      intro hc
      have hv := congrArg Fin.val hc
      simp only [Fin.val_zero] at hv
      omega
    simp only
    rw [Function.update_noteq hidx]
    exact hfirst
  · exact hfirst

theorem firstValue_step {t : Timing} (m : Msg) (u u1 : State) (hQ : True)
    (hu : CursorInv u ∧ u.playbackValues 0 = 1) (h : WindowProc t m u = Except.ok u1) :
    CursorInv u1 ∧ u1.playbackValues 0 = 1 := by
  refine ⟨CursorInv_step m u u1 hQ hu.1 h, ?_⟩
  obtain ⟨hinv, hfirst⟩ := hu
  cases m with
  | lButtonUp =>
    simp only [WindowProc] at h
    injection h with h
    subst h
    exact hfirst
  | keyDown w =>
    simp only [WindowProc] at h
    split at h <;> injection h with h <;> subst h <;> exact hfirst
  | other =>
    simp only [WindowProc] at h
    injection h with h
    subst h
    exact hfirst
  | paint inp =>
    simp only [WindowProc] at h
    split at h
    · rcases DrawMenu_cases h with rfl | rfl <;> exact hfirst
    · obtain ⟨v, rfl, hv⟩ := DrawGame_cases h
      rcases hv with rfl | ⟨-, rfl⟩ | ⟨-, hgs, hv⟩ | ⟨-, hgs, hv⟩
      · exact hfirst
      · exact hfirst
      · rcases playbackCase_cases hv with rfl | ⟨hb, hl, rfl⟩ | ⟨hl, hend, rfl⟩ |
          ⟨hl, hend, rfl⟩ <;> exact hfirst
      · have hlt : u.playbackLocation < u.playbackLength := hinv.2.2.2.2.1 (Or.inl hgs)
        have hv1 := inputCase_induct
          (fun x => (x.playbackLocation < x.playbackLength ∧ CursorInv x) ∧
            x.playbackValues 0 = 1)
          firstValue_buttonBody ⟨⟨hlt, hinv⟩, hfirst⟩ hv
        exact hv1.2

theorem firstValue_reachable {t : Timing} {startTick : Int} {s : State}
    (h : Reachable t startTick s) : s.playbackValues 0 = 1 := by
  obtain ⟨ms, hms⟩ := h
  have := runMsgs_induct (fun x => CursorInv x ∧ x.playbackValues 0 = 1) (fun _ => True)
    firstValue_step ms _ s (fun _ _ => trivial)
    ⟨CursorInv_initial t startTick, rfl⟩ hms
  exact this.2

/-- C13. In every reachable state `playbackValues[0] = 1`, whatever the random
source returned; hence a playback that starts at cursor 0 (a new game, a
restart after a mismatch or after Escape, or the next round) lights button 1
first. -/
theorem first_element_fixed (t : Timing) (startTick : Int) (s : State)
    (h : Reachable t startTick s) :
    readValue s.playbackValues 0 = Except.ok 1 ∧
      ∀ inp : Sample, s.gameState = 1 → s.bOutstandingTimer = false →
        s.currentLitButton = 4 → s.playbackLocation = 0 →
        s.CurrentTimerFinished < inp.tickCountNow →
        ∃ s1, DrawGame t inp s = Except.ok s1 ∧ s1.currentLitButton = 1 := by
  have hfirst := firstValue_reachable h
  have hread : readValue s.playbackValues 0 = Except.ok 1 := by
    rw [readValue_of_bounds _ _ (le_refl _) (by decide)]
    exact congrArg Except.ok hfirst
  refine ⟨hread, ?_⟩
  intro inp hgs htm hlit hloc hdl
  simp [DrawGame, htm, hgs, playbackCase, hdl, hlit, hloc, hread]

/-- Witness for C13: the state reached when the lockout of a fresh game has
passed; the frame at tick 17 lights button 1. -/
theorem first_element_fixed_witness :
    readValue (demoPlaybackState 4 0 15).playbackValues 0 = Except.ok 1 ∧
      ∃ s1, DrawGame demoTiming (demoSample 17 none) (demoPlaybackState 4 0 15) =
        Except.ok s1 ∧ s1.currentLitButton = 1 :=
  ⟨(first_element_fixed demoTiming 0 (demoPlaybackState 4 0 15)
      ⟨[Msg.lButtonUp, Msg.paint (demoSample 10 none), Msg.paint (demoSample 16 none)], rfl⟩).1,
    (first_element_fixed demoTiming 0 (demoPlaybackState 4 0 15)
      ⟨[Msg.lButtonUp, Msg.paint (demoSample 10 none), Msg.paint (demoSample 16 none)], rfl⟩).2
      (demoSample 17 none) rfl rfl rfl rfl (by decide)⟩

/-! ## Buffer accesses below the capacity bound -/

/-- One iteration of the PlayerInput loop stays inside the buffer: before
iteration `j` the cursor is below the length, and the length is at most 255 or
it has just become 256 in this frame, in which case the cursor is at most `j`. -/
theorem buttonBody_in_range (t : Timing) (inp : Sample) (j : Fin 4) (u : State)
    (h0 : 0 ≤ u.playbackLocation) (hlt : u.playbackLocation < u.playbackLength)
    (hcap : u.playbackLength ≤ 255 ∨
      (u.playbackLength = 256 ∧ u.playbackLocation ≤ ((j.val : Nat) : Int))) :
    ∃ u1, buttonBody t inp j u = Except.ok u1 ∧ 0 ≤ u1.playbackLocation ∧
      u1.playbackLocation < u1.playbackLength ∧
      (u1.playbackLength ≤ 255 ∨
        (u1.playbackLength = 256 ∧ u1.playbackLocation ≤ ((j.val : Nat) : Int) + 1)) := by
  have hj : ((j.val : Nat) : Int) < 4 := by
    have := j.isLt
    omega
  have hb : 0 ≤ u.playbackLocation ∧ u.playbackLocation < 256 := ⟨h0, by omega⟩
  have hread := readValue_of_bounds u.playbackValues u.playbackLocation hb.1 hb.2
  by_cases hact : (inp.inButton j && u.mouseClicked) = true
  · by_cases hmatch : ((j.val : Nat) : Int) = u.playbackValues ⟨u.playbackLocation.toNat, by omega⟩
    · by_cases hend : u.playbackLocation + 1 = u.playbackLength
      · have hlen : 0 ≤ u.playbackLength ∧ u.playbackLength < 256 := by omega
        refine ⟨{ u with
          CurrentTimerFinished := inp.tickCountNow + t.ButtonLitTicks
          playbackValues := Function.update u.playbackValues ⟨u.playbackLength.toNat, by omega⟩
            (Int.tmod (inp.rand j) 4)
          playbackLocation := 0
          bestScore := if u.bestScore > u.playbackLength then u.bestScore else u.playbackLength
          playbackLength := u.playbackLength + 1
          gameState := 1 }, ?_, ?_, ?_, ?_⟩
        · simp only [buttonBody, hact, if_true, hread, hmatch, hend, writeValue, hlen, and_self,
            dite_true]
        · exact le_refl _
        · show (0 : Int) < u.playbackLength + 1
          omega
        · show u.playbackLength + 1 ≤ 255 ∨
            (u.playbackLength + 1 = 256 ∧ (0 : Int) ≤ ((j.val : Nat) : Int) + 1)
          omega
      · refine ⟨{ u with playbackLocation := u.playbackLocation + 1 }, ?_, ?_, ?_, ?_⟩
        · simp only [buttonBody, hact, if_true, hread, hmatch, hend, if_false]
        · show 0 ≤ u.playbackLocation + 1
          omega
        · show u.playbackLocation + 1 < u.playbackLength
          omega
        · show u.playbackLength ≤ 255 ∨
            (u.playbackLength = 256 ∧ u.playbackLocation + 1 ≤ ((j.val : Nat) : Int) + 1)
          omega
    · refine ⟨{ u with
        playbackLength := 1
        playbackLocation := 0
        gameState := 1
        bOutstandingTimer := true
        CurrentTimerFinished := inp.tickCountNow + t.GameStateChangedTicks }, ?_, ?_, ?_, ?_⟩
      · simp only [buttonBody, hact, if_true, hread, hmatch, if_false]
      · exact le_refl _
      · show (0 : Int) < 1
        decide
      · exact Or.inl (by show (1 : Int) ≤ 255; decide)
  · refine ⟨u, ?_, h0, hlt, ?_⟩
    · simp only [buttonBody, hact]
      rfl
    · omega

/-- The PlayerInput loop of a frame that starts with length at most 255 and
the cursor inside the sequence never leaves the buffer. -/
theorem inputCase_in_range (t : Timing) (inp : Sample) (s : State)
    (h0 : 0 ≤ s.playbackLocation) (hlt : s.playbackLocation < s.playbackLength)
    (hcap : s.playbackLength ≤ 255) : ∃ s1, inputCase t inp s = Except.ok s1 := by
  obtain ⟨u0, e0, a0, b0, c0⟩ := buttonBody_in_range t inp 0 s h0 hlt (Or.inl hcap)
  obtain ⟨u1, e1, a1, b1, c1⟩ := buttonBody_in_range t inp 1 u0 a0 b0
    (by simpa using c0)
  obtain ⟨u2, e2, a2, b2, c2⟩ := buttonBody_in_range t inp 2 u1 a1 b1
    (by simpa using c1)
  obtain ⟨u3, e3, -, -, -⟩ := buttonBody_in_range t inp 3 u2 a2 b2
    (by simpa using c2)
  refine ⟨u3, ?_⟩
  unfold inputCase
  rw [e0, ok_bind, e1, ok_bind, e2, ok_bind, e3]

/-- C12. In every reachable state with `playbackLength ≤ 255` a game frame has
a successor state for every input, i.e. no access to `playbackValues` leaves
`[0,256)`: the cursor, read by the playback (no button lit) and by the input
comparison (PlayerInput), and the append index `playbackLength` are inside the
buffer. -/
theorem frame_in_range (t : Timing) (startTick : Int) (s : State) (inp : Sample)
    (h : Reachable t startTick s) (hcap : s.playbackLength ≤ 255) :
    (∃ s1, DrawGame t inp s = Except.ok s1) ∧
      (s.gameState = 2 ∨ s.currentLitButton = 4 →
        0 ≤ s.playbackLocation ∧ s.playbackLocation < 256) ∧
      0 ≤ s.playbackLength ∧ s.playbackLength < 256 := by
  obtain ⟨h1, -, h0, -, himp, -⟩ := CursorInv_reachable h
  refine ⟨?_, fun hc => ⟨h0, by have := himp hc; omega⟩, by omega, by omega⟩
  by_cases htm : s.bOutstandingTimer = true
  · by_cases hdl : s.CurrentTimerFinished < inp.tickCountNow
    · simp [DrawGame, htm, hdl]
    · simp [DrawGame, htm, hdl]
  · have htm' : s.bOutstandingTimer = false := by simpa using htm
    by_cases hgs1 : s.gameState = 1
    · by_cases hdl : s.CurrentTimerFinished < inp.tickCountNow
      · by_cases hlit : s.currentLitButton = 4
        · have hlt := himp (Or.inr hlit)
          have hread := readValue_of_bounds s.playbackValues s.playbackLocation h0
            (by omega)
          simp [DrawGame, htm', hgs1, playbackCase, hdl, hlit, hread]
        · by_cases hend : s.playbackLocation = s.playbackLength
          · simp [DrawGame, htm', hgs1, playbackCase, hdl, hlit, hend]
          · simp [DrawGame, htm', hgs1, playbackCase, hdl, hlit, hend]
      · simp [DrawGame, htm', hgs1, playbackCase, hdl]
    · by_cases hgs2 : s.gameState = 2
      · obtain ⟨u, hu⟩ := inputCase_in_range t inp s h0
          (himp (Or.inl hgs2)) hcap
        simp [DrawGame, htm', hgs1, hgs2, hu]
      · simp [DrawGame, htm', hgs1, hgs2]

/-- Witness for C12, at frames that access the buffer.  After the lockout of a
fresh game the frame at tick 17 reads `playbackValues[0]` to light it; at the
start of PlayerInput with a click on button 1 the frame at tick 24 compares
with `playbackValues[0]` and appends at index 1. -/
theorem frame_in_range_witness :
    ((∃ s1, DrawGame demoTiming (demoSample 17 none) (demoPlaybackState 4 0 15) =
          Except.ok s1) ∧
        ((demoPlaybackState 4 0 15).gameState = 2 ∨
            (demoPlaybackState 4 0 15).currentLitButton = 4 →
          0 ≤ (demoPlaybackState 4 0 15).playbackLocation ∧
            (demoPlaybackState 4 0 15).playbackLocation < 256) ∧
        0 ≤ (demoPlaybackState 4 0 15).playbackLength ∧
        (demoPlaybackState 4 0 15).playbackLength < 256) ∧
      ((∃ s1, DrawGame demoTiming (demoSample 24 (some 1)) demoClickState = Except.ok s1) ∧
        (demoClickState.gameState = 2 ∨ demoClickState.currentLitButton = 4 →
          0 ≤ demoClickState.playbackLocation ∧ demoClickState.playbackLocation < 256) ∧
        0 ≤ demoClickState.playbackLength ∧ demoClickState.playbackLength < 256) :=
  ⟨frame_in_range demoTiming 0 (demoPlaybackState 4 0 15) (demoSample 17 none)
      ⟨[Msg.lButtonUp, Msg.paint (demoSample 10 none), Msg.paint (demoSample 16 none)], rfl⟩
      (by decide),
    frame_in_range demoTiming 0 demoClickState (demoSample 24 (some 1))
      ⟨demoStart ++ [Msg.paint (demoSample 22 none), Msg.lButtonUp], rfl⟩ (by decide)⟩

/-! ## The outer rim of the buttons -/

/-- Four vectors of lengths `m₀ … m₃` along unit directions add up to a vector
no longer than `m₀ + m₁ + m₂ + m₃`. -/
theorem combination_le (m0 m1 m2 m3 s0 c0 s1 c1 s2 c2 s3 c3 : ℝ)
    (hm0 : 0 ≤ m0) (hm1 : 0 ≤ m1) (hm2 : 0 ≤ m2) (hm3 : 0 ≤ m3)
    (h0 : s0 ^ 2 + c0 ^ 2 = 1) (h1 : s1 ^ 2 + c1 ^ 2 = 1) (h2 : s2 ^ 2 + c2 ^ 2 = 1)
    (h3 : s3 ^ 2 + c3 ^ 2 = 1) :
    (m0 * s0 + m1 * s1 + m2 * s2 + m3 * s3) ^ 2 +
        (m0 * c0 + m1 * c1 + m2 * c2 + m3 * c3) ^ 2 ≤
      (m0 + m1 + m2 + m3) ^ 2 := by
  have e : (m0 + m1 + m2 + m3) ^ 2 -
      ((m0 * s0 + m1 * s1 + m2 * s2 + m3 * s3) ^ 2 +
        (m0 * c0 + m1 * c1 + m2 * c2 + m3 * c3) ^ 2) =
      m0 * m1 * ((s0 - s1) ^ 2 + (c0 - c1) ^ 2) + m0 * m2 * ((s0 - s2) ^ 2 + (c0 - c2) ^ 2) +
        m0 * m3 * ((s0 - s3) ^ 2 + (c0 - c3) ^ 2) +
        m1 * m2 * ((s1 - s2) ^ 2 + (c1 - c2) ^ 2) +
        m1 * m3 * ((s1 - s3) ^ 2 + (c1 - c3) ^ 2) +
        m2 * m3 * ((s2 - s3) ^ 2 + (c2 - c3) ^ 2) := by
    linear_combination (-(m0 * (m0 + m1 + m2 + m3))) * h0 +
      (-(m1 * (m0 + m1 + m2 + m3))) * h1 + (-(m2 * (m0 + m1 + m2 + m3))) * h2 +
      (-(m3 * (m0 + m1 + m2 + m3))) * h3
  have hpos : 0 ≤ m0 * m1 * ((s0 - s1) ^ 2 + (c0 - c1) ^ 2) +
      m0 * m2 * ((s0 - s2) ^ 2 + (c0 - c2) ^ 2) +
      m0 * m3 * ((s0 - s3) ^ 2 + (c0 - c3) ^ 2) +
      m1 * m2 * ((s1 - s2) ^ 2 + (c1 - c2) ^ 2) +
      m1 * m3 * ((s1 - s3) ^ 2 + (c1 - c3) ^ 2) +
      m2 * m3 * ((s2 - s3) ^ 2 + (c2 - c3) ^ 2) := by positivity
  linarith

/-- The squared distance from the board centre of a point of a Bezier curve
whose four control points are given by angle and radius. -/
theorem distSq_bezier (left top D a0 r0 a1 r1 a2 r2 a3 r3 t : ℝ) :
    distSq
        (bezierPoint (rimPoint Real.sin Real.cos left top D a0 r0)
          { point1 := rimPoint Real.sin Real.cos left top D a1 r1
            point2 := rimPoint Real.sin Real.cos left top D a2 r2
            point3 := rimPoint Real.sin Real.cos left top D a3 r3 } t)
        (boardCentre left top D) =
      ((1 - t) ^ 3 * r0 * Real.sin (frad a0) + 3 * (1 - t) ^ 2 * t * r1 * Real.sin (frad a1) +
          3 * (1 - t) * t ^ 2 * r2 * Real.sin (frad a2) + t ^ 3 * r3 * Real.sin (frad a3)) ^ 2 +
        ((1 - t) ^ 3 * r0 * Real.cos (frad a0) + 3 * (1 - t) ^ 2 * t * r1 * Real.cos (frad a1) +
          3 * (1 - t) * t ^ 2 * r2 * Real.cos (frad a2) + t ^ 3 * r3 * Real.cos (frad a3)) ^ 2 := by
  simp only [distSq, bezierPoint, rimPoint, boardCentre, fullRadius]
  ring

/-- A Bezier curve whose control points have radii `r₀ … r₃ ≥ 0` stays within
the Bernstein average of the radii. -/
theorem distSq_bezier_le (left top D a0 r0 a1 r1 a2 r2 a3 r3 t : ℝ)
    (ht0 : 0 ≤ t) (ht1 : t ≤ 1) (hr0 : 0 ≤ r0) (hr1 : 0 ≤ r1) (hr2 : 0 ≤ r2)
    (hr3 : 0 ≤ r3) :
    distSq
        (bezierPoint (rimPoint Real.sin Real.cos left top D a0 r0)
          { point1 := rimPoint Real.sin Real.cos left top D a1 r1
            point2 := rimPoint Real.sin Real.cos left top D a2 r2
            point3 := rimPoint Real.sin Real.cos left top D a3 r3 } t)
        (boardCentre left top D) ≤
      ((1 - t) ^ 3 * r0 + 3 * (1 - t) ^ 2 * t * r1 + 3 * (1 - t) * t ^ 2 * r2 +
        t ^ 3 * r3) ^ 2 := by
  have h1t : 0 ≤ 1 - t := by linarith
  rw [distSq_bezier]
  have h := combination_le ((1 - t) ^ 3 * r0) (3 * (1 - t) ^ 2 * t * r1)
    (3 * (1 - t) * t ^ 2 * r2) (t ^ 3 * r3)
    (Real.sin (frad a0)) (Real.cos (frad a0)) (Real.sin (frad a1)) (Real.cos (frad a1))
    (Real.sin (frad a2)) (Real.cos (frad a2)) (Real.sin (frad a3)) (Real.cos (frad a3))
    (by positivity) (by positivity) (by positivity) (by positivity)
    (Real.sin_sq_add_cos_sq _) (Real.sin_sq_add_cos_sq _) (Real.sin_sq_add_cos_sq _)
    (Real.sin_sq_add_cos_sq _)
  exact h

/-- The Bernstein weights are non-negative and add up to one, so the average
of radii that are at most `r` is at most `r`. -/
theorem bernstein_average_le (t r r0 r1 r2 r3 : ℝ) (ht0 : 0 ≤ t) (ht1 : t ≤ 1)
    (h0 : r0 ≤ r) (h1 : r1 ≤ r) (h2 : r2 ≤ r) (h3 : r3 ≤ r) :
    (1 - t) ^ 3 * r0 + 3 * (1 - t) ^ 2 * t * r1 + 3 * (1 - t) * t ^ 2 * r2 + t ^ 3 * r3 ≤ r := by
  have h1t : 0 ≤ 1 - t := by linarith
  have w0 : 0 ≤ (1 - t) ^ 3 := by positivity
  have w1 : 0 ≤ 3 * (1 - t) ^ 2 * t := by positivity
  have w2 : 0 ≤ 3 * (1 - t) * t ^ 2 := by positivity
  have w3 : 0 ≤ t ^ 3 := by positivity
  have e : (1 - t) ^ 3 + 3 * (1 - t) ^ 2 * t + 3 * (1 - t) * t ^ 2 + t ^ 3 = 1 := by ring
  nlinarith [mul_le_mul_of_nonneg_left h0 w0, mul_le_mul_of_nonneg_left h1 w1,
    mul_le_mul_of_nonneg_left h2 w2, mul_le_mul_of_nonneg_left h3 w3]

/-- Bounds for the cosine of half the angle between the end points of the
middle segment and its outer control point (39.5 degrees). -/
theorem cos_half_rim_bounds :
    0.9398 ≤ Real.cos (frad (39.5 : ℝ) / 2) ∧ Real.cos (frad (39.5 : ℝ) / 2) ≤ 0.9414 := by
  have hy : frad (39.5 : ℝ) / 2 = 39.5 * 3.14159265359 / 180 / 2 := rfl
  have hy0 : 0 < frad (39.5 : ℝ) / 2 := by rw [hy]; norm_num
  have hy1 : |frad (39.5 : ℝ) / 2| ≤ 1 := by rw [abs_of_pos hy0, hy]; norm_num
  have h := Real.cos_bound hy1
  rw [abs_le, abs_of_pos hy0] at h
  have e2 : (frad (39.5 : ℝ) / 2) ^ 2 ≤ 0.1189 := by rw [hy]; norm_num
  have e2' : 0.1188 ≤ (frad (39.5 : ℝ) / 2) ^ 2 := by rw [hy]; norm_num
  have e4 : (frad (39.5 : ℝ) / 2) ^ 4 ≤ 0.01413 := by rw [hy]; norm_num
  constructor <;> linarith [h.1, h.2]

/-- Bounds for the cosine of 39.5 degrees, by the double-angle formula. -/
theorem cos_rim_bounds :
    0.766 ≤ Real.cos (frad (39.5 : ℝ)) ∧ Real.cos (frad (39.5 : ℝ)) ≤ 0.773 := by
  obtain ⟨hl, hu⟩ := cos_half_rim_bounds
  have e : Real.cos (frad (39.5 : ℝ)) = 2 * Real.cos (frad (39.5 : ℝ) / 2) ^ 2 - 1 := by
    rw [← Real.cos_two_mul]
    congr 1
    ring
  rw [e]
  constructor <;> nlinarith

/-- The squared distance from the centre of a point of the middle outer-rim
curve, in terms of `κ = cos (frad 39.5)`. -/
theorem distSq_middle (left top D : ℝ) (i : Fin 4) (t : ℝ) :
    distSq (outerRimCurve Real.sin Real.cos left top D i 1 t) (boardCentre left top D) =
      (D / 2) ^ 2 *
        ((((1 - t) ^ 3 + 3 * (1 - t) ^ 2 * t) - t ^ 3) ^ 2 +
          1.69 * (3 * (1 - t) * t ^ 2) ^ 2 +
          2.6 * (3 * (1 - t) * t ^ 2) * (((1 - t) ^ 3 + 3 * (1 - t) ^ 2 * t) + t ^ 3) *
            Real.cos (frad (39.5 : ℝ)) +
          4 * ((1 - t) ^ 3 + 3 * (1 - t) ^ 2 * t) * t ^ 3 *
            Real.cos (frad (39.5 : ℝ)) ^ 2) := by
  have hA := Real.sin_sq_add_cos_sq
    (frad (buttonOffsetAngle i + 90 - outerSliceMargin - outercirclebevel : ℝ))
  have hC := Real.sin_sq_add_cos_sq (frad (buttonOffsetAngle i + 45 : ℝ))
  have hB := Real.sin_sq_add_cos_sq
    (frad (buttonOffsetAngle i + outerSliceMargin + outercirclebevel : ℝ))
  have hAC : Real.cos (frad (buttonOffsetAngle i + 90 - outerSliceMargin - outercirclebevel : ℝ)) *
        Real.cos (frad (buttonOffsetAngle i + 45 : ℝ)) +
      Real.sin (frad (buttonOffsetAngle i + 90 - outerSliceMargin - outercirclebevel : ℝ)) *
        Real.sin (frad (buttonOffsetAngle i + 45 : ℝ)) = Real.cos (frad (39.5 : ℝ)) := by
    rw [← Real.cos_sub]
    congr 1
    simp only [frad, outerSliceMargin, outercirclebevel]
    ring
  have hCB : Real.cos (frad (buttonOffsetAngle i + 45 : ℝ)) *
        Real.cos (frad (buttonOffsetAngle i + outerSliceMargin + outercirclebevel : ℝ)) +
      Real.sin (frad (buttonOffsetAngle i + 45 : ℝ)) *
        Real.sin (frad (buttonOffsetAngle i + outerSliceMargin + outercirclebevel : ℝ)) =
      Real.cos (frad (39.5 : ℝ)) := by
    rw [← Real.cos_sub]
    congr 1
    simp only [frad, outerSliceMargin, outercirclebevel]
    ring
  have hAB : Real.cos (frad (buttonOffsetAngle i + 90 - outerSliceMargin - outercirclebevel : ℝ)) *
        Real.cos (frad (buttonOffsetAngle i + outerSliceMargin + outercirclebevel : ℝ)) +
      Real.sin (frad (buttonOffsetAngle i + 90 - outerSliceMargin - outercirclebevel : ℝ)) *
        Real.sin (frad (buttonOffsetAngle i + outerSliceMargin + outercirclebevel : ℝ)) =
      2 * Real.cos (frad (39.5 : ℝ)) ^ 2 - 1 := by
    rw [← Real.cos_sub, ← Real.cos_two_mul]
    congr 1
    simp only [frad, outerSliceMargin, outercirclebevel]
    ring
  simp only [outerRimCurve, outerRimFirst, outerRimSecond]
  rw [distSq_bezier]
  simp only [fullRadius]
  linear_combination
    (D / 2) ^ 2 * ((1 - t) ^ 3 + 3 * (1 - t) ^ 2 * t) ^ 2 * hA +
    (D / 2) ^ 2 * 1.69 * (3 * (1 - t) * t ^ 2) ^ 2 * hC +
    (D / 2) ^ 2 * (t ^ 3) ^ 2 * hB +
    (D / 2) ^ 2 * 2.6 * ((1 - t) ^ 3 + 3 * (1 - t) ^ 2 * t) * (3 * (1 - t) * t ^ 2) * hAC +
    (D / 2) ^ 2 * 2.6 * (3 * (1 - t) * t ^ 2) * t ^ 3 * hCB +
    (D / 2) ^ 2 * 2 * ((1 - t) ^ 3 + 3 * (1 - t) ^ 2 * t) * t ^ 3 * hAB

/-- The polynomial part of the bound for the middle segment: with the cosine
replaced by its upper bound 0.773 the squared relative distance stays below
`1.02 ^ 2` on `[0,1]` (all Bernstein coefficients of degree 10 of the difference
are non-negative). -/
theorem middle_polynomial_le (t : ℝ) (ht0 : 0 ≤ t) (ht1 : t ≤ 1) :
    (((1 - t) ^ 3 + 3 * (1 - t) ^ 2 * t) - t ^ 3) ^ 2 + 1.69 * (3 * (1 - t) * t ^ 2) ^ 2 +
      2.6 * (3 * (1 - t) * t ^ 2) * (((1 - t) ^ 3 + 3 * (1 - t) ^ 2 * t) + t ^ 3) * 0.773 +
      4 * ((1 - t) ^ 3 + 3 * (1 - t) ^ 2 * t) * t ^ 3 * 0.773 ^ 2 ≤ 1.0404 := by
  have h1t : 0 ≤ 1 - t := by linarith
  have b0 := pow_nonneg h1t 10
  have b1 := mul_nonneg (pow_nonneg ht0 1) (pow_nonneg h1t 9)
  have b2 := mul_nonneg (pow_nonneg ht0 2) (pow_nonneg h1t 8)
  have b3 := mul_nonneg (pow_nonneg ht0 3) (pow_nonneg h1t 7)
  have b4 := mul_nonneg (pow_nonneg ht0 4) (pow_nonneg h1t 6)
  have b5 := mul_nonneg (pow_nonneg ht0 5) (pow_nonneg h1t 5)
  have b6 := mul_nonneg (pow_nonneg ht0 6) (pow_nonneg h1t 4)
  have b7 := mul_nonneg (pow_nonneg ht0 7) (pow_nonneg h1t 3)
  have b8 := mul_nonneg (pow_nonneg ht0 8) (pow_nonneg h1t 2)
  have b9 := mul_nonneg (pow_nonneg ht0 9) (pow_nonneg h1t 1)
  have b10 := pow_nonneg ht0 10
  nlinarith [b0, b1, b2, b3, b4, b5, b6, b7, b8, b9, b10]

/-- Every point of the middle outer-rim curve is within `1.02 * (D / 2)` of the
board centre. -/
theorem distSq_middle_le (left top D : ℝ) (i : Fin 4) (t : ℝ) (ht0 : 0 ≤ t) (ht1 : t ≤ 1) :
    distSq (outerRimCurve Real.sin Real.cos left top D i 1 t) (boardCentre left top D) ≤
      (1.02 * (D / 2)) ^ 2 := by
  obtain ⟨hl, hu⟩ := cos_rim_bounds
  have h1t : 0 ≤ 1 - t := by linarith
  have hk0 : 0 ≤ Real.cos (frad (39.5 : ℝ)) := by linarith
  have hk2 : Real.cos (frad (39.5 : ℝ)) ^ 2 ≤ 0.773 ^ 2 := pow_le_pow_left₀ hk0 hu 2
  have c1 : 0 ≤ 2.6 * (3 * (1 - t) * t ^ 2) *
      (((1 - t) ^ 3 + 3 * (1 - t) ^ 2 * t) + t ^ 3) := by positivity
  have c2 : 0 ≤ 4 * ((1 - t) ^ 3 + 3 * (1 - t) ^ 2 * t) * t ^ 3 := by positivity
  have e1 := mul_le_mul_of_nonneg_left hu c1
  have e2 := mul_le_mul_of_nonneg_left hk2 c2
  have hp := middle_polynomial_le t ht0 ht1
  rw [distSq_middle]
  have hD : 0 ≤ (D / 2) ^ 2 := by positivity
  have hf : (((1 - t) ^ 3 + 3 * (1 - t) ^ 2 * t) - t ^ 3) ^ 2 +
      1.69 * (3 * (1 - t) * t ^ 2) ^ 2 +
      2.6 * (3 * (1 - t) * t ^ 2) * (((1 - t) ^ 3 + 3 * (1 - t) ^ 2 * t) + t ^ 3) *
        Real.cos (frad (39.5 : ℝ)) +
      4 * ((1 - t) ^ 3 + 3 * (1 - t) ^ 2 * t) * t ^ 3 *
        Real.cos (frad (39.5 : ℝ)) ^ 2 ≤ 1.0404 := by linarith
  have := mul_le_mul_of_nonneg_left hf hD
  calc (D / 2) ^ 2 * _ ≤ (D / 2) ^ 2 * 1.0404 := this
    _ = (1.02 * (D / 2)) ^ 2 := by ring

theorem rim_radius_eq (D : ℝ) : fullRadius D - lateralMargin D = 0.485 * D := by
  simp only [fullRadius, lateralMargin, outerRimRadius, innerCircleRadius]
  ring

/-- Every point of the first outer-rim curve is within `D / 2` of the centre. -/
theorem distSq_first_le (left top D : ℝ) (hD : 0 < D) (i : Fin 4) (t : ℝ)
    (ht0 : 0 ≤ t) (ht1 : t ≤ 1) :
    distSq (outerRimCurve Real.sin Real.cos left top D i 0 t) (boardCentre left top D) ≤
      (D / 2) ^ 2 := by
  have hin : 0 ≤ fullRadius D - lateralMargin D := by
    rw [rim_radius_eq]
    positivity
  have hle : fullRadius D - lateralMargin D ≤ fullRadius D := by
    rw [rim_radius_eq]
    simp only [fullRadius]
    linarith
  have hR : 0 ≤ fullRadius D := le_trans hin hle
  have h1t : 0 ≤ 1 - t := by linarith
  have hb := distSq_bezier_le left top D
    (buttonOffsetAngle i + 90 - outerSliceMargin) (fullRadius D - lateralMargin D)
    (buttonOffsetAngle i + 90 - outerSliceMargin) (fullRadius D - lateralMargin D)
    (buttonOffsetAngle i + 90 - outerSliceMargin) (fullRadius D)
    (buttonOffsetAngle i + 90 - outerSliceMargin - outercirclebevel) (fullRadius D)
    t ht0 ht1 hin hin hR hR
  have ha := bernstein_average_le t (fullRadius D) (fullRadius D - lateralMargin D)
    (fullRadius D - lateralMargin D) (fullRadius D) (fullRadius D) ht0 ht1 hle hle
    (le_refl _) (le_refl _)
  have ha0 : 0 ≤ (1 - t) ^ 3 * (fullRadius D - lateralMargin D) +
      3 * (1 - t) ^ 2 * t * (fullRadius D - lateralMargin D) +
      3 * (1 - t) * t ^ 2 * fullRadius D + t ^ 3 * fullRadius D := by positivity
  simp only [outerRimCurve, figureBegin, outerRimFirst]
  exact le_trans hb (pow_le_pow_left₀ ha0 ha 2)

/-- Every point of the third outer-rim curve is within `D / 2` of the centre. -/
theorem distSq_third_le (left top D : ℝ) (hD : 0 < D) (i : Fin 4) (t : ℝ)
    (ht0 : 0 ≤ t) (ht1 : t ≤ 1) :
    distSq (outerRimCurve Real.sin Real.cos left top D i 2 t) (boardCentre left top D) ≤
      (D / 2) ^ 2 := by
  have hin : 0 ≤ fullRadius D - lateralMargin D := by
    rw [rim_radius_eq]
    positivity
  have hle : fullRadius D - lateralMargin D ≤ fullRadius D := by
    rw [rim_radius_eq]
    simp only [fullRadius]
    linarith
  have hR : 0 ≤ fullRadius D := le_trans hin hle
  have h1t : 0 ≤ 1 - t := by linarith
  have hb := distSq_bezier_le left top D
    (buttonOffsetAngle i + outerSliceMargin + outercirclebevel) (fullRadius D)
    (buttonOffsetAngle i + outerSliceMargin + outercirclebevel) (fullRadius D)
    (buttonOffsetAngle i + outerSliceMargin) (fullRadius D)
    (buttonOffsetAngle i + outerSliceMargin) (fullRadius D - lateralMargin D)
    t ht0 ht1 hR hR hR hin
  have ha := bernstein_average_le t (fullRadius D) (fullRadius D) (fullRadius D)
    (fullRadius D) (fullRadius D - lateralMargin D) ht0 ht1 (le_refl _) (le_refl _)
    (le_refl _) hle
  have ha0 : 0 ≤ (1 - t) ^ 3 * fullRadius D + 3 * (1 - t) ^ 2 * t * fullRadius D +
      3 * (1 - t) * t ^ 2 * fullRadius D +
      t ^ 3 * (fullRadius D - lateralMargin D) := by positivity
  simp only [outerRimCurve, outerRimSecond, outerRimThird]
  exact le_trans hb (pow_le_pow_left₀ ha0 ha 2)

/-- The point at `t = 3/4` of the middle outer-rim curve lies outside the
circle of radius `D / 2`, for every board and every button. -/
theorem distSq_middle_gt (left top D : ℝ) (hD : 0 < D) (i : Fin 4) :
    (D / 2) ^ 2 <
      distSq (outerRimCurve Real.sin Real.cos left top D i 1 (3 / 4))
        (boardCentre left top D) := by
  rw [distSq_middle]
  obtain ⟨hl, -⟩ := cos_rim_bounds
  have hk2 : (0.766 : ℝ) ^ 2 ≤ Real.cos (frad (39.5 : ℝ)) ^ 2 :=
    pow_le_pow_left₀ (by norm_num) hl 2
  have hD2 : 0 < (D / 2) ^ 2 := by positivity
  have hf : (1 : ℝ) <
      (((1 - 3 / 4) ^ 3 + 3 * (1 - 3 / 4) ^ 2 * (3 / 4)) - (3 / 4) ^ 3) ^ 2 +
        1.69 * (3 * (1 - 3 / 4) * (3 / 4) ^ 2) ^ 2 +
        2.6 * (3 * (1 - 3 / 4) * (3 / 4) ^ 2) *
          (((1 - 3 / 4) ^ 3 + 3 * (1 - 3 / 4) ^ 2 * (3 / 4)) + (3 / 4) ^ 3) *
          Real.cos (frad (39.5 : ℝ)) +
        4 * ((1 - 3 / 4) ^ 3 + 3 * (1 - 3 / 4) ^ 2 * (3 / 4)) * (3 / 4) ^ 3 *
          Real.cos (frad (39.5 : ℝ)) ^ 2 := by
    norm_num at hk2 ⊢
    nlinarith
  have := mul_lt_mul_of_pos_left hf hD2
  linarith

/-- C11, as stated, fails: for the board of width 2 at the origin, the point at
`t = 3/4` of the middle outer-rim curve of button 0 (its second control point
lies at radius `1.3 * fullRadius`) is farther than `D / 2 = 1` from the board
centre. -/
theorem outer_rim_leaves_circle :
    (2 : ℝ) / 2 < Real.sqrt
      (distSq (outerRimCurve Real.sin Real.cos 0 0 2 0 1 (3 / 4)) (boardCentre 0 0 2)) := by
  apply Real.lt_sqrt_of_sq_lt
  rw [distSq_middle]
  obtain ⟨hl, -⟩ := cos_rim_bounds
  have hk2 : (0.766 : ℝ) ^ 2 ≤ Real.cos (frad (39.5 : ℝ)) ^ 2 :=
    pow_le_pow_left₀ (by norm_num) hl 2
  norm_num at hk2 ⊢
  nlinarith

/-- C11, amended.  For every board width `D > 0`, every button and every
`t` in `[0,1]`, the points of the first and of the third outer-rim Bezier curve
lie at distance at most `D / 2` from the board centre, and the points of the
middle curve lie at distance at most `1.02 * (D / 2)`; the middle curve is not
contained in the circle of radius `D / 2`: its point at `t = 3/4` lies at
distance greater than `D / 2`. -/
theorem outer_rim_bound (left top D : ℝ) (hD : 0 < D) (i : Fin 4) (t : ℝ)
    (ht0 : 0 ≤ t) (ht1 : t ≤ 1) :
    Real.sqrt (distSq (outerRimCurve Real.sin Real.cos left top D i 0 t)
        (boardCentre left top D)) ≤ D / 2 ∧
      Real.sqrt (distSq (outerRimCurve Real.sin Real.cos left top D i 1 t)
        (boardCentre left top D)) ≤ 1.02 * (D / 2) ∧
      Real.sqrt (distSq (outerRimCurve Real.sin Real.cos left top D i 2 t)
        (boardCentre left top D)) ≤ D / 2 ∧
      D / 2 < Real.sqrt (distSq (outerRimCurve Real.sin Real.cos left top D i 1 (3 / 4))
        (boardCentre left top D)) := by
  have hD2 : 0 ≤ D / 2 := by positivity
  have hD3 : 0 ≤ 1.02 * (D / 2) := by positivity
  refine ⟨?_, ?_, ?_, ?_⟩
  · rw [Real.sqrt_le_left hD2]
    exact distSq_first_le left top D hD i t ht0 ht1
  · rw [Real.sqrt_le_left hD3]
    exact distSq_middle_le left top D i t ht0 ht1
  · rw [Real.sqrt_le_left hD2]
    exact distSq_third_le left top D hD i t ht0 ht1
  · exact Real.lt_sqrt_of_sq_lt (distSq_middle_gt left top D hD i)

/-- Witness for the amended C11: a board of width 3 with its corner at
`(1, 2)`, button 2, `t = 1/2`. -/
theorem outer_rim_bound_witness :
    Real.sqrt (distSq (outerRimCurve Real.sin Real.cos 1 2 3 2 0 (1 / 2))
        (boardCentre 1 2 3)) ≤ 3 / 2 ∧
      Real.sqrt (distSq (outerRimCurve Real.sin Real.cos 1 2 3 2 1 (1 / 2))
        (boardCentre 1 2 3)) ≤ 1.02 * (3 / 2) ∧
      Real.sqrt (distSq (outerRimCurve Real.sin Real.cos 1 2 3 2 2 (1 / 2))
        (boardCentre 1 2 3)) ≤ 3 / 2 ∧
      3 / 2 < Real.sqrt (distSq (outerRimCurve Real.sin Real.cos 1 2 3 2 1 (3 / 4))
        (boardCentre 1 2 3)) :=
  outer_rim_bound 1 2 3 (by norm_num) 2 (1 / 2) (by norm_num) (by norm_num)

end Simon
